import Mathlib

/-!
Verification of the anchor-based key/value extraction engine.

This development shallowly embeds the core of the table-extraction backend:
the strategy engine (`strategy_engine.py`), the structure analyzer
(`structure_analyzer.py`), the key recognition scan of
`extraction_service.recognize_keys`, and the relationship learner/applier
(`relationship_service.py`).  Confidences are modelled as exact rationals;
Python lists of strings become `List String`; Python `int` indices become
`Int` (with Python's negative-index wrap-around modelled explicitly);
fallible index accesses run in `Except Unit`.

Deliberate modelling notes, stated once here:
* Python's `str.strip` removes Unicode whitespace; we model the ASCII
  whitespace set (space, tab, CR, LF, VT, FF), which is exhaustive for every
  string occurring in the source catalogs and in the theorems below.
* Python's `str.isdigit` accepts some non-ASCII digit characters; we model
  ASCII digits, again exhaustive for the strings involved.
* Python's `\w` regex class covers all Unicode word characters; we model
  ASCII alphanumerics, underscore and Hangul syllables, the scripts that
  occur in the source.
* Wall-clock fields (`created_at`, `updated_at` timestamps, `id(table)`
  based ids, per-key unique ids built from `time.time()`) are impure and are
  omitted from the embedded records; no claim mentions them.
-/

namespace DocAI

/-- ASCII whitespace, the character set `str.strip`/`str.isspace` act on for
the strings of this development. -/
def wsChar (c : Char) : Bool :=
  c = ' ' || c = '\t' || c = '\n' || c = '\r' || c = '\x0b' || c = '\x0c'

/-- Python `str.strip` on a character list. -/
def pyStripL (l : List Char) : List Char :=
  ((l.dropWhile wsChar).reverse.dropWhile wsChar).reverse

/-- Python `str.strip`. -/
def pyStripS (s : String) : String :=
  ⟨pyStripL s.data⟩

/-- Python `str.lower` (ASCII case folding; Hangul has no case). -/
def pyLowerS (s : String) : String :=
  ⟨s.data.map Char.toLower⟩

/-- Python `needle in hay` substring test, on character lists. -/
def containsSubL (hay needle : List Char) : Bool :=
  match hay with
  | [] => needle.isEmpty
  | _ :: t => needle.isPrefixOf hay || containsSubL t needle

/-- Python `needle in hay` substring test on strings. -/
def containsSubS (hay needle : String) : Bool :=
  containsSubL hay.data needle.data

/-- Python `s.startswith(pre)` (character-list based). -/
def strStartsWith (s pre : String) : Bool :=
  pre.data.isPrefixOf s.data

/-- Python list indexing `l[i]`: non-negative indices are direct, negative
indices wrap from the end, anything else raises (here: `none`). -/
def pyGet {α : Type} (l : List α) (i : Int) : Option α :=
  if 0 ≤ i then l.get? i.toNat
  else if 0 ≤ i + l.length then l.get? (i + l.length).toNat
  else none

/-- Drop one leading `+`/`-` sign, as the float grammar admits. -/
def dropSign (l : List Char) : List Char :=
  match l with
  | c :: t => if c = '+' || c = '-' then t else l
  | [] => []

/-- Model of CPython `float(s)` acceptance on an already-stripped string:
an optional sign followed by `inf`/`infinity`/`nan` or by a decimal mantissa
(digits with at most one point, at least one digit) and an optional signed
exponent.  (Underscore digit separators are not modelled; none occur.) -/
def pyFloatAccepts (l0 : List Char) : Bool :=
  let l := dropSign l0
  let low := l.map Char.toLower
  if low = ['i', 'n', 'f'] || low = "infinity".data || low = ['n', 'a', 'n'] then
    true
  else
    let p1 := l.span Char.isDigit
    let d1 := p1.1
    let p2 : List Char × List Char :=
      match p1.2 with
      | '.' :: t => t.span Char.isDigit
      | _ => ([], p1.2)
    let mantissaOk := !d1.isEmpty || !p2.1.isEmpty
    match p2.2 with
    | [] => mantissaOk && !(d1.isEmpty && p2.1.isEmpty)
    | e :: t =>
      if e = 'e' || e = 'E' then
        let t' := dropSign t
        let p3 := t'.span Char.isDigit
        mantissaOk && !p3.1.isEmpty && p3.2.isEmpty
      else false

/-! ## Strategy engine (`core/table_analyzer/strategy_engine.py`) -/

/-- `SearchDirection` enum. -/
inductive SearchDirection where
  | right | down | left | up | diagonal
deriving DecidableEq, Repr

/-- `CellSearchStrategy` enum. -/
inductive CellSearchStrategy where
  | horizontalScan | verticalScan | crossPattern | proximityBased | headerGuided
deriving DecidableEq, Repr

/-- `ExtractionStrategy` dataclass. -/
structure ExtractionStrategy where
  name : String
  description : String
  primarySearchDirection : SearchDirection
  secondarySearchDirections : List SearchDirection
  cellSearchStrategy : CellSearchStrategy
  maxSearchDistance : Nat
  confidenceThreshold : ℚ
  useHeaderMapping : Bool
  requireExactMatch : Bool
  fallbackStrategies : List String
deriving DecidableEq, Repr

/-- `SearchResult` dataclass. -/
structure SearchResult where
  found : Bool
  row : Int
  col : Int
  value : String
  confidence : ℚ
  searchPath : List (Int × Int)
  strategyUsed : String
deriving DecidableEq, Repr

/-- The engine's `_strategies` dict: five fixed keys, so modelled as a
structure with one field per key. -/
structure StrategyCatalog where
  horizontalHeader : ExtractionStrategy
  verticalHeader : ExtractionStrategy
  mixedHeader : ExtractionStrategy
  proximityBased : ExtractionStrategy
  crossPattern : ExtractionStrategy
deriving DecidableEq, Repr

/-- `_initialize_strategies`. -/
def initStrategies : StrategyCatalog where
  horizontalHeader :=
    { name := "가로 헤더 전략"
      description := "헤더가 가로로 배치된 테이블을 위한 전략"
      primarySearchDirection := .down
      secondarySearchDirections := [.right, .left]
      cellSearchStrategy := .verticalScan
      maxSearchDistance := 10
      confidenceThreshold := (mkRat 8 10)
      useHeaderMapping := true
      requireExactMatch := false
      fallbackStrategies := ["proximity_based", "cross_pattern"] }
  verticalHeader :=
    { name := "세로 헤더 전략"
      description := "헤더가 세로로 배치된 테이블을 위한 전략"
      primarySearchDirection := .right
      secondarySearchDirections := [.down, .up]
      cellSearchStrategy := .horizontalScan
      maxSearchDistance := 15
      confidenceThreshold := (mkRat 8 10)
      useHeaderMapping := true
      requireExactMatch := false
      fallbackStrategies := ["proximity_based", "cross_pattern"] }
  mixedHeader :=
    { name := "혼합 헤더 전략"
      description := "헤더가 혼합으로 배치된 복잡한 테이블을 위한 전략"
      primarySearchDirection := .right
      secondarySearchDirections := [.down, .left, .up]
      cellSearchStrategy := .crossPattern
      maxSearchDistance := 8
      confidenceThreshold := (mkRat 7 10)
      useHeaderMapping := true
      requireExactMatch := false
      fallbackStrategies := ["proximity_based", "horizontal_scan"] }
  proximityBased :=
    { name := "근접성 기반 전략"
      description := "앵커 근처에서 값을 찾는 전략"
      primarySearchDirection := .right
      secondarySearchDirections := [.down, .left, .up]
      cellSearchStrategy := .proximityBased
      maxSearchDistance := 5
      confidenceThreshold := (mkRat 6 10)
      useHeaderMapping := false
      requireExactMatch := false
      fallbackStrategies := ["cross_pattern"] }
  crossPattern :=
    { name := "십자 패턴 전략"
      description := "앵커를 중심으로 십자 방향으로 검색하는 전략"
      primarySearchDirection := .right
      secondarySearchDirections := [.down, .left, .up]
      cellSearchStrategy := .crossPattern
      maxSearchDistance := 6
      confidenceThreshold := (mkRat 5 10)
      useHeaderMapping := false
      requireExactMatch := false
      fallbackStrategies := [] }

/-- Python `min` on two rationals (kept kernel-reducible). -/
def pyMin (a b : ℚ) : ℚ := if a ≤ b then a else b

/-- Python `max` on two rationals (kept kernel-reducible). -/
def pyMax (a b : ℚ) : ℚ := if a ≤ b then b else a

/-- `HeaderOrientation` enum (`structure_analyzer.py`). -/
inductive HeaderOrientation where
  | horizontal | vertical | mixed | unknown
deriving DecidableEq, Repr

/-- `TableComplexity` enum. -/
inductive TableComplexity where
  | simple | moderate | complex
deriving DecidableEq, Repr

/-- `HeaderInfo` dataclass. -/
structure HeaderInfo where
  row : Nat
  col : Nat
  text : String
  level : Nat := 1
  spanRows : Nat := 1
  spanCols : Nat := 1
  confidence : ℚ := 1
deriving DecidableEq, Repr

/-- The dict built by `_determine_extraction_strategy`. -/
structure StrategyDescriptor where
  method : String
  startRow : Int
  startCol : Int
  scanDirection : String
  headerOrientationTag : String
  complexityLevel : String
  primaryAxis : Option String := none
  useAiAssistance : Bool := false
  multiPass : Bool := false
  usePatternMatching : Bool := false
deriving DecidableEq, Repr

/-- `TableStructureAnalysis` dataclass (wall-clock `table_id` kept as a plain
string parameter). -/
structure TableStructureAnalysis where
  tableId : String
  pageNumber : Int
  orientation : HeaderOrientation
  complexity : TableComplexity
  headers : List HeaderInfo
  dataStartRow : Int
  dataStartCol : Int
  totalRows : Nat
  totalCols : Nat
  confidence : ℚ
  analysisNotes : List String
  extractionStrategy : StrategyDescriptor
deriving DecidableEq, Repr

/-- Complexity adjustment applied inside `select_strategy`: COMPLEX caps the
distance at 6 and raises the threshold to at least 0.7, SIMPLE adds 2 to the
distance and lowers the threshold by 0.1 with floor 0.5. -/
def adjustStrategy (s : ExtractionStrategy) (complexity : TableComplexity) :
    ExtractionStrategy :=
  match complexity with
  | .complex =>
    { s with maxSearchDistance := min s.maxSearchDistance 6
             confidenceThreshold := pyMax s.confidenceThreshold ((mkRat 7 10)) }
  | .simple =>
    { s with maxSearchDistance := s.maxSearchDistance + 2
             confidenceThreshold := pyMax (s.confidenceThreshold - (mkRat 1 10)) ((mkRat 5 10)) }
  | .moderate => s

/-- `select_strategy`.  The Python method mutates the dataclass held in the
`_strategies` dict in place (the returned strategy is the catalog entry
itself), so the embedding returns the selected strategy together with the
updated catalog. -/
def selectStrategy (cat : StrategyCatalog) (analysis : TableStructureAnalysis) :
    ExtractionStrategy × StrategyCatalog :=
  match analysis.orientation with
  | .horizontal =>
    let s := adjustStrategy cat.horizontalHeader analysis.complexity
    (s, { cat with horizontalHeader := s })
  | .vertical =>
    let s := adjustStrategy cat.verticalHeader analysis.complexity
    (s, { cat with verticalHeader := s })
  | .mixed =>
    let s := adjustStrategy cat.mixedHeader analysis.complexity
    (s, { cat with mixedHeader := s })
  | .unknown =>
    let s := adjustStrategy cat.proximityBased analysis.complexity
    (s, { cat with proximityBased := s })

/-- The header-keyword denylist of `_is_value_cell`. -/
def headerKeywords : List String := ["항목", "구분", "검사", "결과", "수치", "값", "기준"]

/-- `_is_value_cell`: reject blank, require a target pattern when a non-empty
pattern list is supplied (Python truthiness: `None` and `[]` both disable the
pattern branch), otherwise reject the header-keyword denylist. -/
def isValueCell (cellValue : String) (targetPatterns : Option (List String)) : Bool :=
  if cellValue.data.isEmpty || cellValue.data.all wsChar then false
  else
    let usePatterns := match targetPatterns with
      | some ps => !ps.isEmpty
      | none => false
    if usePatterns then
      (targetPatterns.getD []).any fun p =>
        containsSubS (pyLowerS cellValue) (pyLowerS p)
    else
      !(headerKeywords.any fun kw => containsSubS cellValue kw)

/-- The numeric test of `_calculate_confidence`: remove every `.`, `-`, `+`
and ask `str.isdigit` (non-empty, all digits). -/
def confDigitTest (cellValue : String) : Bool :=
  let t := cellValue.data.filter fun c => !(c = '.' || c = '-' || c = '+')
  !t.isEmpty && t.all Char.isDigit

/-- `_calculate_confidence`: base `1.0` minus `0.1` per unit of distance,
then `+0.1` for a digit string, or else (`elif`) `-0.2` for length over 20,
clamped to `[0,1]`.  The `strategy` argument is accepted and unused, exactly
as in the source. -/
def calcConfidence (cellValue : String) (distance : Nat)
    (_strategy : ExtractionStrategy) : ℚ :=
  let base : ℚ := 1 - distance * ((mkRat 1 10))
  let base :=
    if confDigitTest cellValue then base + (mkRat 1 10)
    else if 20 < cellValue.length then base - (mkRat 2 10)
    else base
  pyMax 0 (pyMin 1 base)

/-- The `found=False` result every search returns on failure. -/
def notFoundResult (path : List (Int × Int)) (name : String) : SearchResult :=
  { found := false, row := -1, col := -1, value := "", confidence := 0
    searchPath := path, strategyUsed := name }

/-- One `_vertical_scan` loop, iterating over the remaining distances.
`Except.error` models an `IndexError` escaping the loop (a far-negative
anchor index); `break` returns the not-found result with the path so far. -/
def verticalScanAux (table : List (List String)) (anchorRow anchorCol : Int)
    (strat : ExtractionStrategy) (patterns : Option (List String)) :
    List Nat → List (Int × Int) → Except Unit SearchResult
  | [], path => .ok (notFoundResult path strat.name)
  | d :: ds, path =>
    let newRow : Int := anchorRow + d
    if (table.length : Int) ≤ newRow then .ok (notFoundResult path strat.name)
    else
      let path := path ++ [(newRow, anchorCol)]
      match pyGet table newRow with
      | none => .error ()
      | some rowL =>
        if anchorCol < (rowL.length : Int) then
          match pyGet rowL anchorCol with
          | none => .error ()
          | some cellStr =>
            let v := pyStripS cellStr
            if !v.data.isEmpty && isValueCell v patterns then
              let conf := calcConfidence v d strat
              if strat.confidenceThreshold ≤ conf then
                .ok { found := true, row := newRow, col := anchorCol, value := v
                      confidence := conf, searchPath := path
                      strategyUsed := strat.name }
              else verticalScanAux table anchorRow anchorCol strat patterns ds path
            else verticalScanAux table anchorRow anchorCol strat patterns ds path
        else verticalScanAux table anchorRow anchorCol strat patterns ds path

/-- One `_horizontal_scan` loop over the remaining distances. -/
def horizontalScanAux (table : List (List String)) (anchorRow anchorCol : Int)
    (strat : ExtractionStrategy) (patterns : Option (List String)) :
    List Nat → List (Int × Int) → Except Unit SearchResult
  | [], path => .ok (notFoundResult path strat.name)
  | d :: ds, path =>
    match pyGet table anchorRow with
    | none => .error ()
    | some rowA =>
      let newCol : Int := anchorCol + d
      if (rowA.length : Int) ≤ newCol then .ok (notFoundResult path strat.name)
      else
        let path := path ++ [(anchorRow, newCol)]
        match pyGet rowA newCol with
        | none => .error ()
        | some cellStr =>
          let v := pyStripS cellStr
          if !v.data.isEmpty && isValueCell v patterns then
            let conf := calcConfidence v d strat
            if strat.confidenceThreshold ≤ conf then
              .ok { found := true, row := anchorRow, col := newCol, value := v
                    confidence := conf, searchPath := path
                    strategyUsed := strat.name }
            else horizontalScanAux table anchorRow anchorCol strat patterns ds path
          else horizontalScanAux table anchorRow anchorCol strat patterns ds path

/-- `_horizontal_scan` including its leading `anchor_row >= len` guard. -/
def horizontalScan (table : List (List String)) (anchorRow anchorCol : Int)
    (strat : ExtractionStrategy) (patterns : Option (List String)) :
    Except Unit SearchResult :=
  if (table.length : Int) ≤ anchorRow then .ok (notFoundResult [] strat.name)
  else
    horizontalScanAux table anchorRow anchorCol strat patterns
      (List.range' 1 strat.maxSearchDistance) []

/-- The inner per-direction loop of `_cross_pattern_search`: accumulates the
search path and the best candidate (strictly better confidence replaces, so
the first best is kept).  Bounds failures `break` the direction. -/
def crossDirAux (table : List (List String)) (anchorRow anchorCol : Int)
    (strat : ExtractionStrategy) (patterns : Option (List String)) (dr dc : Int) :
    List Nat → List (Int × Int) × ℚ × Option SearchResult →
    List (Int × Int) × ℚ × Option SearchResult
  | [], acc => acc
  | d :: ds, (path, bestConf, best) =>
    let newRow : Int := anchorRow + dr * d
    let newCol : Int := anchorCol + dc * d
    if newRow < 0 || (table.length : Int) ≤ newRow then (path, bestConf, best)
    else
      match table.get? newRow.toNat with
      | none => (path, bestConf, best)
      | some rowL =>
        if newCol < 0 || (rowL.length : Int) ≤ newCol then (path, bestConf, best)
        else
          let path := path ++ [(newRow, newCol)]
          match rowL.get? newCol.toNat with
          | none => (path, bestConf, best)
          | some cellStr =>
            let v := pyStripS cellStr
            if !v.data.isEmpty && isValueCell v patterns then
              let conf := calcConfidence v d strat
              if bestConf < conf then
                crossDirAux table anchorRow anchorCol strat patterns dr dc ds
                  (path, conf,
                    some { found := true, row := newRow, col := newCol, value := v
                           confidence := conf, searchPath := path
                           strategyUsed := strat.name })
              else
                crossDirAux table anchorRow anchorCol strat patterns dr dc ds
                  (path, bestConf, best)
            else
              crossDirAux table anchorRow anchorCol strat patterns dr dc ds
                (path, bestConf, best)

/-- `_cross_pattern_search`: probe right, down, left, up; keep the best
candidate; apply the threshold only to the final pick. -/
def crossPatternSearch (table : List (List String)) (anchorRow anchorCol : Int)
    (strat : ExtractionStrategy) (patterns : Option (List String)) : SearchResult :=
  let dirs : List (Int × Int) := [(0, 1), (1, 0), (0, -1), (-1, 0)]
  let acc := dirs.foldl
    (fun acc dir =>
      crossDirAux table anchorRow anchorCol strat patterns dir.1 dir.2
        (List.range' 1 strat.maxSearchDistance) acc)
    ([], 0, none)
  match acc.2.2 with
  | some r =>
    if strat.confidenceThreshold ≤ acc.2.1 then r
    else notFoundResult acc.1 strat.name
  | none => notFoundResult acc.1 strat.name

/-- A scored candidate of `_proximity_based_search`. -/
structure ProximityCandidate where
  row : Int
  col : Int
  value : String
  confidence : ℚ
  distance : Nat
deriving DecidableEq, Repr

/-- Python `max(xs, key=k)`: first element of maximal key. -/
def pyMaxBy {α : Type} (key : α → ℚ) : List α → Option α
  | [] => none
  | x :: xs => some (xs.foldl (fun b a => if key b < key a then a else b) x)

/-- The cells `_proximity_based_search` visits (in loop order, after the
in-bounds `continue` checks), with their coordinates. -/
def proximityVisited (table : List (List String)) (anchorRow anchorCol : Int)
    (m : Nat) : List (Int × Int × String) :=
  let offsets : List Int := (List.range (2 * m + 1)).map fun (i : Nat) => (i : Int) - (m : Int)
  (offsets.flatMap fun dr => offsets.map fun dc => (dr, dc)).filterMap
    fun (p : Int × Int) =>
      if p.1 = 0 ∧ p.2 = 0 then none
      else
        let nr : Int := anchorRow + p.1
        let nc : Int := anchorCol + p.2
        if nr < 0 || (table.length : Int) ≤ nr then none
        else
          match table.get? nr.toNat with
          | none => none
          | some rowL =>
            if nc < 0 || (rowL.length : Int) ≤ nc then none
            else
              match rowL.get? nc.toNat with
              | none => none
              | some cellStr => some (nr, nc, cellStr)

/-- The scored candidate list of `_proximity_based_search`: every visited
passing cell with its confidence at its Manhattan distance. -/
def proximityCandidates (table : List (List String)) (anchorRow anchorCol : Int)
    (strat : ExtractionStrategy) (patterns : Option (List String)) :
    List ProximityCandidate :=
  (proximityVisited table anchorRow anchorCol strat.maxSearchDistance).filterMap
    fun t =>
      let v := pyStripS t.2.2
      if !v.data.isEmpty && isValueCell v patterns then
        let dist := (t.1 - anchorRow).natAbs + (t.2.1 - anchorCol).natAbs
        some { row := t.1, col := t.2.1, value := v
               confidence := calcConfidence v dist strat, distance := dist }
      else none

/-- `_proximity_based_search`: score every passing cell of the
`(2·max+1)²` neighbourhood by confidence at its Manhattan distance and
return the single best if it clears the threshold. -/
def proximitySearch (table : List (List String)) (anchorRow anchorCol : Int)
    (strat : ExtractionStrategy) (patterns : Option (List String)) : SearchResult :=
  let visited := proximityVisited table anchorRow anchorCol strat.maxSearchDistance
  let path := visited.map fun t => (t.1, t.2.1)
  match pyMaxBy (fun c => c.confidence)
      (proximityCandidates table anchorRow anchorCol strat patterns) with
  | some best =>
    if strat.confidenceThreshold ≤ best.confidence then
      { found := true, row := best.row, col := best.col, value := best.value
        confidence := best.confidence, searchPath := path
        strategyUsed := strat.name }
    else notFoundResult path strat.name
  | none => notFoundResult path strat.name

/-- `find_value_cell`: dispatch on the strategy's search algorithm; the
catch-all `except` turns any escaped `IndexError` into a `found=False`
result with an empty path. -/
def findValueCell (table : List (List String)) (anchorRow anchorCol : Int)
    (strat : ExtractionStrategy) (patterns : Option (List String)) : SearchResult :=
  let res : Except Unit SearchResult :=
    match strat.cellSearchStrategy with
    | .verticalScan =>
      verticalScanAux table anchorRow anchorCol strat patterns
        (List.range' 1 strat.maxSearchDistance) []
    | .horizontalScan => horizontalScan table anchorRow anchorCol strat patterns
    | .crossPattern => .ok (crossPatternSearch table anchorRow anchorCol strat patterns)
    | .proximityBased => .ok (proximitySearch table anchorRow anchorCol strat patterns)
    | .headerGuided => .ok (proximitySearch table anchorRow anchorCol strat patterns)
  match res with
  | .ok r => r
  | .error _ => notFoundResult [] strat.name

/-- Whether the in-bounds cell `(r, c)` passes the value predicate with
confidence (at its Manhattan distance from the anchor) at or above the
strategy threshold. -/
def cellPassesB (table : List (List String)) (strat : ExtractionStrategy)
    (patterns : Option (List String)) (anchorRow anchorCol : Int) (r c : Nat) : Bool :=
  match table.get? r with
  | none => false
  | some rowL =>
    match rowL.get? c with
    | none => false
    | some cellStr =>
      let v := pyStripS cellStr
      let d := ((r : Int) - anchorRow).natAbs + ((c : Int) - anchorCol).natAbs
      !v.data.isEmpty && isValueCell v patterns &&
        decide (strat.confidenceThreshold ≤ calcConfidence v d strat)

/-- Existence of an in-bounds passing candidate within Manhattan distance
`max_search_distance` of the anchor (the neighbourhood named by the claim). -/
def existsPassingManB (table : List (List String)) (strat : ExtractionStrategy)
    (patterns : Option (List String)) (anchorRow anchorCol : Int) : Bool :=
  (List.range table.length).any fun r =>
    match table.get? r with
    | none => false
    | some rowL =>
      (List.range rowL.length).any fun c =>
        decide (((r : Int) - anchorRow).natAbs + ((c : Int) - anchorCol).natAbs
            ≤ strat.maxSearchDistance) &&
          cellPassesB table strat patterns anchorRow anchorCol r c

/-- Existence of an in-bounds passing candidate within Chebyshev distance
`max_search_distance` of the anchor (the neighbourhood every search
algorithm actually stays inside). -/
def existsPassingChebB (table : List (List String)) (strat : ExtractionStrategy)
    (patterns : Option (List String)) (anchorRow anchorCol : Int) : Bool :=
  (List.range table.length).any fun r =>
    match table.get? r with
    | none => false
    | some rowL =>
      (List.range rowL.length).any fun c =>
        decide (((r : Int) - anchorRow).natAbs ≤ strat.maxSearchDistance) &&
          decide (((c : Int) - anchorCol).natAbs ≤ strat.maxSearchDistance) &&
          cellPassesB table strat patterns anchorRow anchorCol r c

/-! ## Structure analyzer (`core/table_analyzer/structure_analyzer.py`) -/

/-- Python `max` on two integers. -/
def pyMaxI (a b : Int) : Int := if a ≤ b then b else a

/-- Hangul syllable block (`가`–`힣`). -/
def isHangul (c : Char) : Bool :=
  0xAC00 ≤ c.toNat && c.toNat ≤ 0xD7A3

/-- Model of the regex `\w` class for the scripts occurring in the source:
ASCII alphanumerics, underscore and Hangul syllables. -/
def wordChar (c : Char) : Bool :=
  c.isAlpha || c.isDigit || c = '_' || isHangul c

/-- Character class `[가-힣a-zA-Z0-9\s/]` of the first header pattern. -/
def p1Class (c : Char) : Bool :=
  isHangul c || c.isAlpha || c.isDigit || wsChar c || c = '/'

/-- Header pattern `^[가-힣]+(\([가-힣a-zA-Z0-9\s/]+\))?$`. -/
def p1Match (l : List Char) : Bool :=
  let s := l.span isHangul
  if s.1.isEmpty then false
  else
    match s.2 with
    | [] => true
    | '(' :: t =>
      match t.reverse with
      | ')' :: midrev =>
        let mid := midrev.reverse
        !mid.isEmpty && mid.all p1Class
      | _ => false
    | _ => false

/-- Header pattern `^[a-zA-Z]+(\s+[a-zA-Z]+)*$`: equivalently, a non-empty
string of ASCII letters and whitespace that starts and ends with a letter. -/
def p2Match (l : List Char) : Bool :=
  match l with
  | [] => false
  | c :: _ =>
    c.isAlpha && l.all (fun x => x.isAlpha || wsChar x) &&
      (match l.getLast? with
       | some d => d.isAlpha
       | none => false)

/-- Header pattern `^[가-힣]{2,}$`. -/
def p3Match (l : List Char) : Bool :=
  l.all isHangul && 2 ≤ l.length

/-- Header pattern `^[가-힣]+[0-9]*$`. -/
def p4Match (l : List Char) : Bool :=
  let s := l.span isHangul
  !s.1.isEmpty && s.2.all Char.isDigit

/-- Header pattern `.*검사.*|.*결과.*|.*수치.*|.*값.*` under `re.match`:
one of the keywords occurs within the first line (a regex `.` does not cross
a newline, and `re.match` anchors at the start only). -/
def p5Match (l : List Char) : Bool :=
  let firstLine := l.takeWhile fun c => c ≠ '\n'
  ["검사", "결과", "수치", "값"].any fun kw => containsSubL firstLine kw.data

/-- The five `header_patterns` of `_is_likely_header`, tried in order. -/
def headerPatternsMatch (l : List Char) : Bool :=
  p1Match l || p2Match l || p3Match l || p4Match l || p5Match l

/-- The purely-numeric test of `_is_likely_header`: remove `.`, `,`, `-` and
ask `str.isdigit`. -/
def pureNumericB (l : List Char) : Bool :=
  let t := l.filter fun c => !(c = '.' || c = ',' || c = '-')
  !t.isEmpty && t.all Char.isDigit

/-- The purely-symbolic test `^[^\w가-힣]+$`. -/
def pureSymbolicB (l : List Char) : Bool :=
  !l.isEmpty && l.all fun c => !wordChar c

/-- `_is_likely_header`: a stripped non-empty text is header-like if one of
the five regex patterns matches, else it must not be purely numeric nor
purely symbolic and must have length in `(1, 50)`. -/
def isLikelyHeader (text : String) : Bool :=
  if text.data.isEmpty || (pyStripS text).data.isEmpty then false
  else
    let t := (pyStripS text).data
    if headerPatternsMatch t then true
    else if pureNumericB t then false
    else if pureSymbolicB t then false
    else decide (1 < t.length) && decide (t.length < 50)

/-- `_detect_header_candidates`: header-like cells of the first row (at
confidence 0.8), then — when there are at least two rows — header-like first
cells of every row (at confidence 0.7). -/
def detectHeaderCandidates (rows : List (List String)) : List HeaderInfo :=
  let firstRowHeaders : List HeaderInfo :=
    match rows with
    | [] => []
    | r0 :: _ =>
      r0.enum.filterMap fun p =>
        if isLikelyHeader p.2 then
          some { row := 0, col := p.1, text := p.2, level := 1, confidence := (mkRat 8 10) }
        else none
  let firstColHeaders : List HeaderInfo :=
    if 1 < rows.length then
      rows.enum.filterMap fun p =>
        match p.2 with
        | [] => none
        | c0 :: _ =>
          if isLikelyHeader c0 then
            some { row := p.1, col := 0, text := c0, level := 1, confidence := (mkRat 7 10) }
          else none
    else []
  firstRowHeaders ++ firstColHeaders

/-- `_analyze_orientation`: compare the first-row and first-column header
ratios against the 0.5/0.3 thresholds. -/
def analyzeOrientation (rows : List (List String)) (headers : List HeaderInfo) :
    HeaderOrientation :=
  if headers.isEmpty then .unknown
  else
    let firstRowHeaders := (headers.filter fun h => h.row = 0).length
    let firstColHeaders := (headers.filter fun h => h.col = 0).length
    let totalCols := match rows with
      | [] => 1
      | r :: _ => r.length
    let hr : ℚ := if 0 < totalCols then mkRat firstRowHeaders totalCols else 0
    let vr : ℚ := if 0 < rows.length then mkRat firstColHeaders rows.length else 0
    if (mkRat 1 2) < hr ∧ vr < (mkRat 3 10) then .horizontal
    else if (mkRat 1 2) < vr ∧ hr < (mkRat 3 10) then .vertical
    else if (mkRat 3 10) < hr ∧ (mkRat 3 10) < vr then .mixed
    else .horizontal

/-- `_evaluate_complexity`: one point each for a large grid, many headers,
a high empty-cell ratio and irregular row lengths; bucket the score. -/
def evaluateComplexity (rows : List (List String)) (headers : List HeaderInfo) :
    TableComplexity :=
  let wideFirstRow : Bool :=
    match rows with
    | [] => false
    | r :: _ => decide (10 < r.length)
  let sizeScore : Nat :=
    if 20 < rows.length ∨ wideFirstRow = true then 1 else 0
  let headerScore : Nat := if 10 < headers.length then 1 else 0
  let totalCells := (rows.map List.length).sum
  let emptyCells :=
    (rows.map fun row =>
      (row.filter fun cell => cell.data.isEmpty || (pyStripS cell).data.isEmpty).length).sum
  let emptyScore : Nat :=
    if 0 < totalCells ∧ (mkRat 3 10) < mkRat emptyCells totalCells then 1 else 0
  let irregularScore : Nat :=
    if 1 < rows.length then
      match rows.map List.length with
      | [] => 0
      | n :: ns => if ns.any fun m => m ≠ n then 1 else 0
    else 0
  let score := sizeScore + headerScore + emptyScore + irregularScore
  if score ≤ 1 then .simple
  else if score ≤ 2 then .moderate
  else .complex

/-- `_find_data_start_point`: one past the deepest header row, and one past
the deepest header column when that column is positive.  `max(xs)` with the
`-1` fallback for an empty list is folded from `-1`, which agrees with
Python's `max` because every row/col index is non-negative. -/
def findDataStartPoint (_rows : List (List String)) (headers : List HeaderInfo) :
    Int × Int :=
  let maxHeaderRow : Int :=
    (headers.map fun h => Int.ofNat h.row).foldl pyMaxI (-1)
  let maxHeaderCol : Int :=
    (headers.map fun h => Int.ofNat h.col).foldl pyMaxI (-1)
  let dsRow : Int := pyMaxI 1 (maxHeaderRow + 1)
  let dsCol : Int :=
    if (0 : Int) < maxHeaderCol then pyMaxI 0 (maxHeaderCol + 1) else 0
  (dsRow, dsCol)

/-- The dict returned by `_rule_based_analysis` (the degraded branch carries
no data-start keys, hence the `Option`s). -/
structure RuleAnalysis where
  orientation : HeaderOrientation
  complexity : TableComplexity
  headers : List HeaderInfo
  dataStartRow : Option Int
  dataStartCol : Option Int
  confidence : ℚ
  notes : List String
deriving DecidableEq, Repr

/-- `_rule_based_analysis`: for a grid with fewer than two rows answer
UNKNOWN/SIMPLE at confidence 0.5; otherwise run the full rule pipeline at
confidence 0.8. -/
def ruleBasedAnalysis (rows : List (List String)) : RuleAnalysis :=
  if rows.length < 2 then
    { orientation := .unknown, complexity := .simple, headers := []
      dataStartRow := none, dataStartCol := none
      confidence := (mkRat 1 2), notes := ["테이블 데이터 부족"] }
  else
    let headers := detectHeaderCandidates rows
    let ds := findDataStartPoint rows headers
    { orientation := analyzeOrientation rows headers
      complexity := evaluateComplexity rows headers
      headers := headers
      dataStartRow := some ds.1, dataStartCol := some ds.2
      confidence := (mkRat 8 10), notes := ["규칙 기반 분석 완료"] }

/-- The dict an `_ai_based_analysis` success returns. -/
structure AiAnalysis where
  orientation : HeaderOrientation
  complexity : TableComplexity
  headers : List HeaderInfo
  dataStartRow : Int
  dataStartCol : Int
  confidence : ℚ
  notes : List String
deriving DecidableEq, Repr

/-- The `.value` string of a `HeaderOrientation`. -/
def orientationValue : HeaderOrientation → String
  | .horizontal => "horizontal"
  | .vertical => "vertical"
  | .mixed => "mixed"
  | .unknown => "unknown"

/-- The `.value` string of a `TableComplexity`. -/
def complexityValue : TableComplexity → String
  | .simple => "simple"
  | .moderate => "moderate"
  | .complex => "complex"

/-- `_determine_extraction_strategy`. -/
def determineExtractionStrategy (o : HeaderOrientation) (c : TableComplexity)
    (dataStartRow dataStartCol : Int) : StrategyDescriptor :=
  let base : StrategyDescriptor :=
    { method := "sequential", startRow := dataStartRow, startCol := dataStartCol
      scanDirection := "horizontal", headerOrientationTag := orientationValue o
      complexityLevel := complexityValue c }
  let base :=
    match o with
    | .vertical => { base with scanDirection := "vertical", primaryAxis := some "column" }
    | .horizontal => { base with scanDirection := "horizontal", primaryAxis := some "row" }
    | .mixed => { base with scanDirection := "both", primaryAxis := some "adaptive" }
    | .unknown => base
  match c with
  | .complex => { base with method := "adaptive", useAiAssistance := true, multiPass := true }
  | .moderate => { base with method := "structured", usePatternMatching := true }
  | .simple => base

/-- `_merge_analysis_results`: adopt the AI result wholesale when its
confidence exceeds 0.6, otherwise keep the rule-based result; record the
winner in the notes. -/
def mergeAnalysisResults (tableId : String) (pageNumber : Int)
    (totalRows totalCols : Nat) (rule : RuleAnalysis) (ai : Option AiAnalysis) :
    TableStructureAnalysis :=
  let useAi := match ai with
    | some a => decide ((mkRat 6 10) < a.confidence)
    | none => false
  match ai, useAi with
  | some a, true =>
    { tableId := tableId, pageNumber := pageNumber
      orientation := a.orientation, complexity := a.complexity
      headers := a.headers
      dataStartRow := a.dataStartRow, dataStartCol := a.dataStartCol
      totalRows := totalRows, totalCols := totalCols
      confidence := a.confidence
      analysisNotes := a.notes ++ ["AI 분석 결과 사용"]
      extractionStrategy :=
        determineExtractionStrategy a.orientation a.complexity
          a.dataStartRow a.dataStartCol }
  | _, _ =>
    { tableId := tableId, pageNumber := pageNumber
      orientation := rule.orientation, complexity := rule.complexity
      headers := rule.headers
      dataStartRow := rule.dataStartRow.getD 1
      dataStartCol := rule.dataStartCol.getD 0
      totalRows := totalRows, totalCols := totalCols
      confidence := rule.confidence
      analysisNotes := rule.notes ++ ["규칙 기반 분석 결과 사용"]
      extractionStrategy :=
        determineExtractionStrategy rule.orientation rule.complexity
          (rule.dataStartRow.getD 1) (rule.dataStartCol.getD 0) }

/-- `analyze_table_structure` with the optional AI hint passed as a value
(`none` models AI unavailable, disabled, or failed — `_ai_based_analysis`
returns `None` on any error). -/
def analyzeTableStructure (tableId : String) (pageNumber : Int)
    (rows : List (List String)) (ai : Option AiAnalysis) : TableStructureAnalysis :=
  let totalCols := match rows with
    | [] => 0
    | r :: _ => r.length
  mergeAnalysisResults tableId pageNumber rows.length totalCols
    (ruleBasedAnalysis rows) ai

/-! ## Key recognition scan (`services/extraction_service.py`, `recognize_keys`)

The scan core over one table's rows: per-cell pattern matching against the
category → key → patterns catalog, and accumulation of `recognized_keys`
with the multiple-occurrence handling.  The wall-clock unique id, the
composite-field detection (which calls the AI service and re-reads settings
files) and the suggestion lists are impure or irrelevant to the claims and
are not part of the embedded record. -/

/-- The tunable `confidence_thresholds`/`text_processing` settings used by
the per-cell matcher, with the `.get` defaults of the source. -/
structure MatchThresholds where
  exactMatch : ℚ := (mkRat 95 100)
  prefixMatch : ℚ := (mkRat 8 10)
  suffixMatch : ℚ := (mkRat 7 10)
  wordBoundaryMatch : ℚ := (mkRat 6 10)
  partialMatch : ℚ := (mkRat 4 10)
  minimumAcceptance : ℚ := (mkRat 4 10)
  minimumPatternLength : Nat := 3
deriving DecidableEq, Repr

/-- The key catalog: category name to keys, each key to its pattern list
(the flattened view of both the old list shape and the new
`{patterns: [...]}` shape). -/
def KeyDb : Type := List (String × List (String × List String))

/-- Whether a word character sits at index `j` (out of range counts as
non-word). -/
def wordAt (s : List Char) (j : Nat) : Bool :=
  match s.get? j with
  | some c => wordChar c
  | none => false

/-- A regex `\b` boundary at position `i` of `s`. -/
def boundaryAt (s : List Char) (i : Nat) : Bool :=
  let before := if i = 0 then false else wordAt s (i - 1)
  before != wordAt s i

/-- `re.search(r"\b" + re.escape(p) + r"\b", s)`: some occurrence of `p`
in `s` flanked by word boundaries. -/
def wordBoundaryFound (s p : List Char) : Bool :=
  (List.range (s.length + 1)).any fun i =>
    p.isPrefixOf (s.drop i) && boundaryAt s i && boundaryAt s (i + p.length)

/-- The per-cell match chain of `recognize_keys` on cleaned (stripped,
lower-cased) cell and pattern text: exact, starts-with, ends-with, then
substring (pattern length permitting) refined into word-boundary or
partial. -/
def matchCellPattern (th : MatchThresholds) (cellClean patClean : List Char) :
    Option (ℚ × String) :=
  if cellClean = patClean then some (th.exactMatch, "exact")
  else if patClean.isPrefixOf cellClean then some (th.prefixMatch, "prefix")
  else if patClean.reverse.isPrefixOf cellClean.reverse then
    some (th.suffixMatch, "suffix")
  else if containsSubL cellClean patClean &&
      decide (th.minimumPatternLength ≤ patClean.length) then
    if wordBoundaryFound cellClean patClean then
      some (th.wordBoundaryMatch, "word_boundary")
    else some (th.partialMatch, "partial")
  else none

/-- A successful per-cell match: key name, confidence, match type. -/
structure MatchInfo where
  key : String
  confidence : ℚ
  matchType : String
deriving DecidableEq, Repr

/-- One key's match: the pattern loop's `break` exits only the pattern
loop, so each key contributes its first matching pattern. -/
def keyFirstPatternMatch (th : MatchThresholds) (cellClean : List Char)
    (key : String × List String) : Option MatchInfo :=
  (key.2.findSome? fun pat =>
    matchCellPattern th cellClean (pyLowerS (pyStripS pat)).data).map
    fun m => { key := key.1, confidence := m.1, matchType := m.2 }

/-- The matches of one category, in key order: the key loop has no early
exit, so every key of the category with a matching pattern contributes. -/
def categoryMatches (th : MatchThresholds) (cellClean : List Char)
    (keys : List (String × List String)) : List MatchInfo :=
  keys.filterMap (keyFirstPatternMatch th cellClean)

/-- The match list of the first non-`_` category with at least one matching
key: `matched` is only tested after the key loop finishes, so the
`if matched: break` leaves the category loop once the whole first matching
category has been processed, and later categories are never scanned. -/
def findMatchingCategory (th : MatchThresholds) (db : KeyDb)
    (cellClean : List Char) : Option (List MatchInfo) :=
  db.findSome? fun cat =>
    if strStartsWith cat.1 "_" then none
    else
      match categoryMatches th cellClean cat.2 with
      | [] => none
      | ms => some ms

/-- The category of a key: first non-`_` category containing it, else
`"unknown"`. -/
def keyCategory (db : KeyDb) (keyName : String) : String :=
  match db.find? (fun e => !strStartsWith e.1 "_" && e.2.any fun k => k.1 == keyName) with
  | some e => e.1
  | none => "unknown"

/-- An entry of `alternative_locations`. -/
structure AltLocation where
  anchorText : String
  anchorRow : Nat
  anchorCol : Nat
  confidence : ℚ
  matchType : String
deriving DecidableEq, Repr

/-- A `recognized_key` record (impure/irrelevant fields omitted, see the
section header). -/
structure RecognizedKey where
  key : String
  category : String
  anchorText : String
  anchorRow : Nat
  anchorCol : Nat
  valueRow : Nat
  valueCol : Nat
  relativePosition : String
  confidence : ℚ
  matchType : String
  multipleFound : Bool
  alternativeLocations : List AltLocation
  totalLocations : Nat
  selectedLocation : String
deriving DecidableEq, Repr

/-- Append an alternative location to the first recognized key with the
given key name (the in-place dict update of the source). -/
def appendAltLocation (keyName : String) (alt : AltLocation) :
    List RecognizedKey → List RecognizedKey
  | [] => []
  | rk :: rest =>
    if rk.key = keyName then
      let alts := rk.alternativeLocations ++ [alt]
      { rk with alternativeLocations := alts, multipleFound := true
                totalLocations := 1 + alts.length } :: rest
    else rk :: appendAltLocation keyName alt rest

/-- The create-or-append step for one matching key of the cell's matching
category: append an alternative location to the existing recognized key of
the same name, or append a fresh recognized key (whose suggested value cell
is the next row, same column). -/
def applyMatch (db : KeyDb) (cellText : String) (rowIdx colIdx : Nat)
    (st : List RecognizedKey) (m : MatchInfo) : List RecognizedKey :=
  if st.any fun rk => rk.key == m.key then
    appendAltLocation m.key
      { anchorText := cellText, anchorRow := rowIdx, anchorCol := colIdx
        confidence := m.confidence, matchType := m.matchType } st
  else
    st ++ [{ key := m.key, category := keyCategory db m.key
             anchorText := cellText, anchorRow := rowIdx, anchorCol := colIdx
             valueRow := rowIdx + 1, valueCol := colIdx
             relativePosition := "next_row"
             confidence := m.confidence, matchType := m.matchType
             multipleFound := false, alternativeLocations := []
             totalLocations := 1, selectedLocation := "primary" }]

/-- Process one cell of the scan: skip falsy cells, strip, find the first
matching category, then create or append a record for every matching key of
that category, in key order, against the running state. -/
def processCell (th : MatchThresholds) (db : KeyDb) (st : List RecognizedKey)
    (rowIdx colIdx : Nat) (cellRaw : String) : List RecognizedKey :=
  if cellRaw.data.isEmpty then st
  else
    let cellText := pyStripS cellRaw
    match findMatchingCategory th db (pyLowerS (pyStripS cellText)).data with
    | none => st
    | some ms => ms.foldl (applyMatch db cellText rowIdx colIdx) st

/-- The `recognized_keys` accumulated by scanning one table's rows in order. -/
def recognizeKeysScan (th : MatchThresholds) (db : KeyDb)
    (allRows : List (List String)) : List RecognizedKey :=
  allRows.enum.foldl
    (fun st rp =>
      rp.2.enum.foldl (fun st2 cp => processCell th db st2 rp.1 cp.1 cp.2) st)
    []

/-! ## Relationship learner/applier (`services/relationship_service.py`) -/

/-- `CellType` enum (`models/table_models.py`). -/
inductive CellType where
  | header | data | empty | merged
deriving DecidableEq, Repr

/-- The `.value` string of a `CellType`. -/
def cellTypeValue : CellType → String
  | .header => "header"
  | .data => "data"
  | .empty => "empty"
  | .merged => "merged"

/-- `CellData` model (style/span metadata not used by the service). -/
structure CellData where
  row : Nat
  col : Nat
  content : String
  type : CellType := .data
deriving DecidableEq, Repr

/-- `GridData` model. -/
structure GridData where
  rows : Nat
  cols : Nat
  cells : List CellData
deriving DecidableEq, Repr

/-- The slice of `TableData` the relationship service reads. -/
structure TableData where
  tableId : String
  pageNumber : Int
  gridData : GridData
deriving DecidableEq, Repr

/-- `relative_position` of a relationship. -/
structure RelPosition where
  rowOffset : Int
  colOffset : Int
  direction : String
  distance : Nat
deriving DecidableEq, Repr

/-- The anchor/value sub-dicts of a stored relationship. -/
structure RelCell where
  content : String
  row : Nat
  col : Nat
  typeTag : String
deriving DecidableEq, Repr

/-- `table_context` of a stored relationship. -/
structure TableContext where
  tableId : String
  pageNumber : Int
  rows : Nat
  cols : Nat
deriving DecidableEq, Repr

/-- A relationship record (timestamps omitted: wall clock). -/
structure Relationship where
  id : String
  description : String
  anchor : RelCell
  value : RelCell
  relativePosition : RelPosition
  tableContext : TableContext
deriving DecidableEq, Repr

/-- `_calculate_relative_position`: offsets, eight-way direction from their
signs, Manhattan distance. -/
def calcRelativePosition (anchorCell valueCell : CellData) : RelPosition :=
  let rowDiff : Int := (valueCell.row : Int) - (anchorCell.row : Int)
  let colDiff : Int := (valueCell.col : Int) - (anchorCell.col : Int)
  let direction :=
    if rowDiff = 0 ∧ 0 < colDiff then "right"
    else if rowDiff = 0 ∧ colDiff < 0 then "left"
    else if 0 < rowDiff ∧ colDiff = 0 then "down"
    else if rowDiff < 0 ∧ colDiff = 0 then "up"
    else if 0 < rowDiff ∧ 0 < colDiff then "down_right"
    else if 0 < rowDiff ∧ colDiff < 0 then "down_left"
    else if rowDiff < 0 ∧ 0 < colDiff then "up_right"
    else if rowDiff < 0 ∧ colDiff < 0 then "up_left"
    else "same"
  { rowOffset := rowDiff, colOffset := colDiff, direction := direction
    distance := rowDiff.natAbs + colDiff.natAbs }

/-- The relationship record `save_relationship` builds from one confirmed
anchor/value pair (learning step; persistence happens at the storage
boundary). -/
def buildRelationship (relationshipId : String) (description : Option String)
    (anchorCell valueCell : CellData) (table : TableData) : Relationship :=
  { id := relationshipId
    description := description.getD (anchorCell.content ++ " -> " ++ valueCell.content)
    anchor := { content := anchorCell.content, row := anchorCell.row
                col := anchorCell.col, typeTag := cellTypeValue anchorCell.type }
    value := { content := valueCell.content, row := valueCell.row
               col := valueCell.col, typeTag := cellTypeValue valueCell.type }
    relativePosition := calcRelativePosition anchorCell valueCell
    tableContext := { tableId := table.tableId, pageNumber := table.pageNumber
                      rows := table.gridData.rows, cols := table.gridData.cols } }

/-- `_find_cells_by_content`: all cells whose content contains (or, in exact
mode, equals) the needle, case-insensitively. -/
def findCellsByContent (table : TableData) (content : String)
    (exactMatch : Bool) : List CellData :=
  table.gridData.cells.filter fun cell =>
    if exactMatch then cell.content == content
    else containsSubS (pyLowerS cell.content) (pyLowerS content)

/-- `_find_value_cell_by_position`: offset the anchor, check grid bounds,
return the first cell stored at the target coordinates. -/
def findValueCellByPosition (table : TableData) (anchorCell : CellData)
    (rp : RelPosition) : Option CellData :=
  let targetRow : Int := (anchorCell.row : Int) + rp.rowOffset
  let targetCol : Int := (anchorCell.col : Int) + rp.colOffset
  if targetRow < 0 ∨ (table.gridData.rows : Int) ≤ targetRow ∨
      targetCol < 0 ∨ (table.gridData.cols : Int) ≤ targetCol then none
  else
    table.gridData.cells.find? fun cell =>
      Int.ofNat cell.row == targetRow && Int.ofNat cell.col == targetCol

/-- `settings.confidence_base`. -/
def confidenceBase : ℚ := (mkRat 1 2)

/-- `settings.confidence_anchor_weight`. -/
def confidenceAnchorWeight : ℚ := (mkRat 3 10)

/-- `settings.confidence_value_weight`. -/
def confidenceValueWeight : ℚ := (mkRat 2 10)

/-- `settings.confidence_numeric_weight`. -/
def confidenceNumericWeight : ℚ := (mkRat 1 10)

/-- `settings.text_similarity_exact`. -/
def textSimilarityExact : ℚ := 1

/-- `settings.text_similarity_case_insensitive`. -/
def textSimilarityCaseInsensitive : ℚ := (mkRat 9 10)

/-- `settings.text_similarity_partial`. -/
def textSimilarityPartial : ℚ := (mkRat 7 10)

/-- `settings.text_similarity_default`. -/
def textSimilarityDefault : ℚ := (mkRat 3 10)

/-- `_calculate_text_similarity`: tiered. -/
def calcTextSimilarity (text1 text2 : String) : ℚ :=
  if text1 == text2 then textSimilarityExact
  else if pyLowerS text1 == pyLowerS text2 then textSimilarityCaseInsensitive
  else if containsSubS (pyLowerS text1) (pyLowerS text2) ||
      containsSubS (pyLowerS text2) (pyLowerS text1) then textSimilarityPartial
  else textSimilarityDefault

/-- `_is_numeric_value`: strip, reject empty, remove commas, try `float`. -/
def isNumericValue (text : String) : Bool :=
  let cleaned := pyStripL text.data
  if cleaned.isEmpty then false
  else pyFloatAccepts (cleaned.filter fun c => c ≠ ',')

/-- `_calculate_extraction_confidence`: base plus anchor-similarity,
non-empty-value and numeric-value contributions, clamped to `[0,1]`. -/
def calcExtractionConfidence (anchorCell valueCell : CellData)
    (rel : Relationship) : ℚ :=
  let confidence := confidenceBase
  let sim := calcTextSimilarity anchorCell.content rel.anchor.content
  let confidence := confidence + (sim - (mkRat 1 2)) * confidenceAnchorWeight
  let confidence :=
    if !(pyStripS valueCell.content).data.isEmpty then
      confidence + confidenceValueWeight
    else confidence
  let confidence :=
    if isNumericValue valueCell.content then confidence + confidenceNumericWeight
    else confidence
  pyMin 1 (pyMax 0 confidence)

/-- One extracted anchor/value pair of `_apply_single_relationship`. -/
structure ExtractedValue where
  anchorContent : String
  anchorRow : Nat
  anchorCol : Nat
  valueContent : String
  valueRow : Nat
  valueCol : Nat
  confidence : ℚ
deriving DecidableEq, Repr

/-- The result dict of a successful `_apply_single_relationship`. -/
structure AppliedRelationship where
  relationshipId : String
  description : String
  anchorContent : String
  extractedValues : List ExtractedValue
  extractionCount : Nat
deriving DecidableEq, Repr

/-- One entry of the `extracted_values` list built inside
`_apply_single_relationship`. -/
def extractionEntry (rel : Relationship) (a v : CellData) : ExtractedValue :=
  { anchorContent := a.content, anchorRow := a.row, anchorCol := a.col
    valueContent := v.content, valueRow := v.row, valueCol := v.col
    confidence := calcExtractionConfidence a v rel }

/-- `_apply_single_relationship`: find every cell containing the stored
anchor content, offset each by the stored relative position, and score the
extractions; `none` when no anchor matches or nothing is extracted. -/
def applySingleRelationship (table : TableData) (rel : Relationship) :
    Option AppliedRelationship :=
  let anchorCells := findCellsByContent table rel.anchor.content false
  if anchorCells.isEmpty then none
  else
    let extractedValues := anchorCells.filterMap fun a =>
      (findValueCellByPosition table a rel.relativePosition).map fun v =>
        extractionEntry rel a v
    if extractedValues.isEmpty then none
    else some { relationshipId := rel.id, description := rel.description
                anchorContent := rel.anchor.content
                extractedValues := extractedValues
                extractionCount := extractedValues.length }

/-- A stored relationship dict as returned by the storage layer (payload
plus the timestamp keys the list sort reads). -/
structure StoredRelationship where
  rel : Relationship
  createdAt : Option String := none
  updatedAt : Option String := none
deriving DecidableEq, Repr

/-- Python `x.get("updated_at", x.get("created_at", ""))`. -/
def storedSortKey (r : StoredRelationship) : String :=
  r.updatedAt.getD (r.createdAt.getD "")

/-- `load_relationship`: the storage read runs inside `try`; any storage
error is caught, logged, and converted to a `None` success. -/
def loadRelationshipSvc (storageResult : Except String (Option StoredRelationship)) :
    Except String (Option StoredRelationship) :=
  match storageResult with
  | .ok d => .ok d
  | .error _ => .ok none

/-- `list_relationships`: on success sort newest-first (stable, by the
`updated_at`/`created_at` key); any storage error is caught and converted to
an empty-list success. -/
def listRelationshipsSvc (storageResult : Except String (List StoredRelationship)) :
    Except String (List StoredRelationship) :=
  match storageResult with
  | .ok rs => .ok (rs.mergeSort fun a b => storedSortKey b ≤ storedSortKey a)
  | .error _ => .ok []

/-! ## Claim-side formulas and auxiliary predicates -/

/-- The numeric bonus/penalty branch of `_calculate_confidence` as a single
value: `+0.1` for a digit string, else `-0.2` for length over 20, else 0. -/
def confBonus (cellValue : String) : ℚ :=
  if confDigitTest cellValue then (mkRat 1 10)
  else if 20 < cellValue.length then -((mkRat 2 10))
  else 0

/-- Closed form of the search confidence implemented by the source:
clamp of `1 - 0.1·d` plus the (mutually exclusive) bonus/penalty. -/
def amendedSearchConfidence (cellValue : String) (distance : Nat) : ℚ :=
  pyMax 0 (pyMin 1 (1 - distance * ((mkRat 1 10)) + confBonus cellValue))

/-- The claim's numeric predicate: parses as a decimal tolerating commas,
periods and sign — modelled as: after removing commas, periods and signs a
non-empty digit string remains. -/
def specNumericTolerant (cellValue : String) : Bool :=
  let t := cellValue.data.filter fun c => !(c = ',' || c = '.' || c = '-' || c = '+')
  !t.isEmpty && t.all Char.isDigit

/-- The search confidence formula exactly as the claim words it: both the
numeric bonus and the length penalty applied whenever their conditions
hold. -/
def specSearchConfidence (cellValue : String) (distance : Nat) : ℚ :=
  pyMax 0 (pyMin 1 (1 - distance * ((mkRat 1 10)) +
    (if specNumericTolerant cellValue then (mkRat 1 10) else 0) -
    (if 20 < cellValue.length then (mkRat 2 10) else 0)))

/-- An in-bounds cell within Chebyshev distance `max_search_distance` of the
anchor that passes the value predicate, whose confidence at its Manhattan
distance is `conf`. -/
def chebCandidateAt (table : List (List String)) (strat : ExtractionStrategy)
    (patterns : Option (List String)) (anchorRow anchorCol : Int) (conf : ℚ) : Prop :=
  ∃ r c rowL cellStr, table.get? r = some rowL ∧ rowL.get? c = some cellStr ∧
    ((r : Int) - anchorRow).natAbs ≤ strat.maxSearchDistance ∧
    ((c : Int) - anchorCol).natAbs ≤ strat.maxSearchDistance ∧
    (pyStripS cellStr).data.isEmpty = false ∧
    isValueCell (pyStripS cellStr) patterns = true ∧
    calcConfidence (pyStripS cellStr)
      (((r : Int) - anchorRow).natAbs + ((c : Int) - anchorCol).natAbs) strat = conf

/-- A concrete structure analysis with orientation HORIZONTAL and
complexity SIMPLE, used as input to `selectStrategy` in the theorems. -/
def sampleSimpleHorizontalAnalysis : TableStructureAnalysis :=
  { tableId := "t", pageNumber := 1, orientation := .horizontal
    complexity := .simple, headers := [], dataStartRow := 1
    dataStartCol := 0, totalRows := 2, totalCols := 2, confidence := (mkRat 8 10)
    analysisNotes := []
    extractionStrategy :=
      { method := "sequential", startRow := 1, startCol := 0
        scanDirection := "horizontal", headerOrientationTag := "horizontal"
        complexityLevel := "simple" } }

/-! ## Shared lemmas -/

theorem containsSubL_self (l : List Char) : containsSubL l l = true := by
  cases l with
  | nil => rfl
  | cons c t =>
    have hpre : (c :: t).isPrefixOf (c :: t) = true := by
      simp [List.isPrefixOf_iff_prefix]
    unfold containsSubL
    simp [hpre]

theorem calcConfidence_eq (cellValue : String) (distance : Nat)
    (strat : ExtractionStrategy) :
    calcConfidence cellValue distance strat =
      amendedSearchConfidence cellValue distance := by
  unfold calcConfidence amendedSearchConfidence confBonus
  by_cases h1 : confDigitTest cellValue = true <;>
    by_cases h2 : 20 < cellValue.length <;>
      simp [h1, h2] <;> congr 2 <;> ring

theorem confBonus_le (cellValue : String) : confBonus cellValue ≤ 1/10 := by
  unfold confBonus
  split_ifs <;> norm_num [Rat.mkRat_eq_div]

theorem clampStep (x y : ℚ) (hxy : y + 1/10 ≤ x) (hx1 : x ≤ 1) :
    pyMax 0 (pyMin 1 y) ≤ pyMax 0 (pyMin 1 x) ∧
    (0 < pyMax 0 (pyMin 1 y) → pyMax 0 (pyMin 1 y) < pyMax 0 (pyMin 1 x)) := by
  unfold pyMax pyMin
  split_ifs <;>
    constructor <;>
    first
    | intro h; linarith
    | linarith

/-! ## Claim theorems -/

/-- C5 counterexample: at distance 1 the 21-digit string gets confidence 1.0
from the code (the length penalty sits in an `elif` and is skipped for
numeric text), while the claimed formula — both adjustments applied — gives
0.8. -/
theorem C5_counterexample :
    calcConfidence "111111111111111111111" 1 initStrategies.proximityBased = 1 ∧
    specSearchConfidence "111111111111111111111" 1 = (mkRat 8 10) ∧
    calcConfidence "111111111111111111111" 1 initStrategies.proximityBased ≠
      specSearchConfidence "111111111111111111111" 1 := by
  with_unfolding_all decide

/-- C5 (amended): the search confidence equals the clamp to `[0,1]` of
`1 - 0.1·d` plus `0.1` when the text with periods and signs removed is a
non-empty digit string (commas are not tolerated), or else minus `0.2` when
the length exceeds 20 — the two adjustments are mutually exclusive. -/
theorem C5_confidence_formula_amended (cellValue : String) (distance : Nat)
    (strat : ExtractionStrategy) :
    calcConfidence cellValue distance strat =
      amendedSearchConfidence cellValue distance :=
  calcConfidence_eq cellValue distance strat

/-- C6 counterexample: for the VERTICAL_SCAN catalog strategy (max distance
10) and a 21-character non-numeric text, the confidences at distances 9 and
10 — both within `max_search_distance` — are each clamped to 0, so the
confidence at the smaller distance is not strictly greater. -/
theorem C6_counterexample :
    9 < 10 ∧ 10 ≤ initStrategies.horizontalHeader.maxSearchDistance ∧
    calcConfidence "aaaaaaaaaaaaaaaaaaaaa" 9 initStrategies.horizontalHeader =
      calcConfidence "aaaaaaaaaaaaaaaaaaaaa" 10 initStrategies.horizontalHeader ∧
    calcConfidence "aaaaaaaaaaaaaaaaaaaaa" 10 initStrategies.horizontalHeader = 0 := by
  with_unfolding_all decide

/-- C6 (amended): for a fixed value text, the search confidence is
non-increasing in the Manhattan distance (over the positive distances the
scans use), and strictly decreasing whenever the confidence at the larger
distance is still positive; strictness fails only once the clamp at 0 has
been reached. -/
theorem C6_monotonicity_amended (cellValue : String) (strat : ExtractionStrategy)
    (d1 d2 : Nat) (h1 : 1 ≤ d1) (h12 : d1 < d2) :
    calcConfidence cellValue d2 strat ≤ calcConfidence cellValue d1 strat ∧
    (0 < calcConfidence cellValue d2 strat →
      calcConfidence cellValue d2 strat < calcConfidence cellValue d1 strat) := by
  rw [calcConfidence_eq, calcConfidence_eq]
  unfold amendedSearchConfidence
  simp only [Rat.mkRat_eq_div]
  apply clampStep
  · have hc : (d1 : ℚ) + 1 ≤ (d2 : ℚ) := by exact_mod_cast h12
    push_cast
    linarith
  · have hb := confBonus_le cellValue
    have hd : (1 : ℚ) ≤ (d1 : ℚ) := by exact_mod_cast h1
    push_cast
    linarith

theorem C6_monotonicity_amended_witness :
    1 ≤ 1 ∧ 1 < 2 ∧
    (calcConfidence "ab" 2 initStrategies.proximityBased ≤
        calcConfidence "ab" 1 initStrategies.proximityBased ∧
      (0 < calcConfidence "ab" 2 initStrategies.proximityBased →
        calcConfidence "ab" 2 initStrategies.proximityBased <
          calcConfidence "ab" 1 initStrategies.proximityBased)) :=
  ⟨by decide, by decide,
    C6_monotonicity_amended "ab" initStrategies.proximityBased 1 2
      (by decide) (by decide)⟩

/-- C2: a partial match whose confidence 0.4 lies strictly below a
configured `minimum_acceptance` of 0.5 is still recorded as a recognized
key — the threshold check in the source gates only a log statement, against
its own comment and the spec. -/
theorem C2_low_confidence_match_recorded :
    recognizeKeysScan { minimumAcceptance := (mkRat 1 2) }
        [("basic", [("testkey", ["cde"])])] [["abcdef"]] =
      [{ key := "testkey", category := "basic", anchorText := "abcdef"
         anchorRow := 0, anchorCol := 0, valueRow := 1, valueCol := 0
         relativePosition := "next_row", confidence := (mkRat 2 5)
         matchType := "partial", multipleFound := false
         alternativeLocations := [], totalLocations := 1
         selectedLocation := "primary" }] ∧
    ((mkRat 2 5) : ℚ) < ({ minimumAcceptance := (mkRat 1 2) } : MatchThresholds).minimumAcceptance := by
  with_unfolding_all decide

/-- C3: `select_strategy` mutates the shared catalog entry in place, so two
identical calls with orientation HORIZONTAL and complexity SIMPLE return
max search distances 12 and then 14, and the catalog differs from the
freshly constructed one after the first call. -/
theorem C3_catalog_mutation :
    (selectStrategy initStrategies sampleSimpleHorizontalAnalysis).1.maxSearchDistance = 12 ∧
    (selectStrategy (selectStrategy initStrategies sampleSimpleHorizontalAnalysis).2
        sampleSimpleHorizontalAnalysis).1.maxSearchDistance = 14 ∧
    (selectStrategy initStrategies
        sampleSimpleHorizontalAnalysis).2.horizontalHeader.maxSearchDistance = 12 ∧
    initStrategies.horizontalHeader.maxSearchDistance = 10 := by
  decide

/-- C7 counterexample: on an empty grid the (AI-less) analysis returns
orientation UNKNOWN and complexity SIMPLE as claimed, but confidence 0.5
(the "insufficient data" rule-based confidence), not 0. -/
theorem C7_counterexample :
    (analyzeTableStructure "table_1" 1 [] none).orientation = .unknown ∧
    (analyzeTableStructure "table_1" 1 [] none).complexity = .simple ∧
    (analyzeTableStructure "table_1" 1 [] none).confidence = (mkRat 1 2) ∧
    (analyzeTableStructure "table_1" 1 [] none).confidence ≠ 0 := by
  decide

/-- C7 (amended): for every grid that is empty or has fewer than two rows,
the structure analysis (with the optional AI hint absent) returns
orientation UNKNOWN, complexity SIMPLE and confidence 0.5; the embedding is
a total function, mirroring the source's catch-all degradation. -/
theorem C7_small_grid_amended (tableId : String) (page : Int)
    (rows : List (List String)) (h : rows.length < 2) :
    (analyzeTableStructure tableId page rows none).orientation = .unknown ∧
    (analyzeTableStructure tableId page rows none).complexity = .simple ∧
    (analyzeTableStructure tableId page rows none).confidence = (mkRat 1 2) := by
  unfold analyzeTableStructure mergeAnalysisResults ruleBasedAnalysis
  simp [h]

theorem C7_small_grid_amended_witness :
    ([["단일행"]] : List (List String)).length < 2 ∧
    ((analyzeTableStructure "t" 1 [["단일행"]] none).orientation = .unknown ∧
      (analyzeTableStructure "t" 1 [["단일행"]] none).complexity = .simple ∧
      (analyzeTableStructure "t" 1 [["단일행"]] none).confidence = (mkRat 1 2)) :=
  ⟨by decide, C7_small_grid_amended "t" 1 [["단일행"]] (by decide)⟩

/-- C8 counterexample: a storage error surfaces from `load_relationship` as
an `ok None` and from `list_relationships` as an `ok []` — the failure is
swallowed, not propagated. -/
theorem C8_counterexample :
    loadRelationshipSvc (Except.error "storage failure") = Except.ok none ∧
    loadRelationshipSvc (Except.error "storage failure") ≠
      Except.error "storage failure" ∧
    listRelationshipsSvc (Except.error "storage failure") = Except.ok [] := by
  refine ⟨rfl, ?_, rfl⟩
  simp [loadRelationshipSvc]

/-- C8 (amended): every storage failure is caught inside the service:
`load_relationship` converts it to a `None` success and
`list_relationships` to an empty-list success; neither ever returns an
error to its caller. -/
theorem C8_errors_swallowed_amended (e : String) :
    loadRelationshipSvc (Except.error e) = Except.ok none ∧
    listRelationshipsSvc (Except.error e) = Except.ok [] :=
  ⟨rfl, rfl⟩

theorem isLikelyHeader_spec (text : String) (h : isLikelyHeader text = true) :
    headerPatternsMatch (pyStripS text).data = true ∨
      (pureNumericB (pyStripS text).data = false ∧
        pureSymbolicB (pyStripS text).data = false ∧
        1 < (pyStripS text).data.length ∧ (pyStripS text).data.length < 50) := by
  unfold isLikelyHeader at h
  by_cases h0 : (text.data.isEmpty || (pyStripS text).data.isEmpty) = true
  · rw [if_pos h0] at h
    exact absurd h (by simp)
  · rw [if_neg h0] at h
    simp only at h
    by_cases hB : headerPatternsMatch (pyStripS text).data = true
    · exact Or.inl hB
    · rw [if_neg hB] at h
      by_cases hN : pureNumericB (pyStripS text).data = true
      · rw [if_pos hN] at h
        exact absurd h (by simp)
      · rw [if_neg hN] at h
        by_cases hS : pureSymbolicB (pyStripS text).data = true
        · rw [if_pos hS] at h
          exact absurd h (by simp)
        · rw [if_neg hS] at h
          simp only [Bool.and_eq_true, decide_eq_true_eq] at h
          exact Or.inr ⟨Bool.not_eq_true _ |>.mp hN, Bool.not_eq_true _ |>.mp hS,
            h.1, h.2⟩

theorem mem_detectHeaderCandidates (rows : List (List String)) (h : HeaderInfo)
    (hmem : h ∈ detectHeaderCandidates rows) : isLikelyHeader h.text = true := by
  unfold detectHeaderCandidates at hmem
  simp only [List.mem_append] at hmem
  rcases hmem with hm | hm
  · cases rows with
    | nil => simp at hm
    | cons r0 rest =>
      simp only [List.mem_filterMap] at hm
      obtain ⟨p, _, hpe⟩ := hm
      by_cases hil : isLikelyHeader p.2 = true
      · rw [if_pos hil] at hpe
        cases hpe
        exact hil
      · rw [if_neg hil] at hpe
        exact absurd hpe (by simp)
  · by_cases hlen : 1 < rows.length
    · rw [if_pos hlen] at hm
      simp only [List.mem_filterMap] at hm
      obtain ⟨p, _, hpe⟩ := hm
      cases hrow : p.2 with
      | nil => rw [hrow] at hpe; exact absurd hpe (by simp)
      | cons c0 t =>
        rw [hrow] at hpe
        dsimp only at hpe
        by_cases hil : isLikelyHeader c0 = true
        · rw [if_pos hil] at hpe
          cases hpe
          exact hil
        · rw [if_neg hil] at hpe
          exact absurd hpe (by simp)
    · rw [if_neg hlen] at hm
      simp at hm

set_option maxRecDepth 4000 in
/-- C9 counterexample: the single-character cell `"가"` matches the Korean
header regex, so it is classified as a header candidate even though its
trimmed length 1 violates the claimed `[2,50)` length rule. -/
theorem C9_counterexample :
    ({ row := 0, col := 0, text := "가", level := 1, confidence := (mkRat 8 10) } : HeaderInfo) ∈
      detectHeaderCandidates [["가", "x"], ["1", "2"]] ∧
    (pyStripS "가").data.length = 1 := by
  decide

/-- C9 (amended): a first-row or first-column cell is classified as a header
candidate only if its trimmed text matches one of the five built-in header
regex patterns, or else it is not purely numeric, not purely symbolic, and
has length at least 2 and strictly less than 50 — the shape rules apply only
to cells no regex pattern matches. -/
theorem C9_header_shape_amended (rows : List (List String)) (h : HeaderInfo)
    (hmem : h ∈ detectHeaderCandidates rows) :
    isLikelyHeader h.text = true ∧
    (headerPatternsMatch (pyStripS h.text).data = true ∨
      (pureNumericB (pyStripS h.text).data = false ∧
        pureSymbolicB (pyStripS h.text).data = false ∧
        1 < (pyStripS h.text).data.length ∧ (pyStripS h.text).data.length < 50)) := by
  have hl := mem_detectHeaderCandidates rows h hmem
  exact ⟨hl, isLikelyHeader_spec h.text hl⟩

theorem C9_header_shape_amended_witness :
    ({ row := 0, col := 0, text := "신장", level := 1, confidence := (mkRat 8 10) } : HeaderInfo) ∈
      detectHeaderCandidates [["신장", "170"], ["x", "y"]] ∧
    (isLikelyHeader ("신장" : String) = true ∧
      (headerPatternsMatch (pyStripS "신장").data = true ∨
        (pureNumericB (pyStripS "신장").data = false ∧
          pureSymbolicB (pyStripS "신장").data = false ∧
          1 < (pyStripS "신장").data.length ∧ (pyStripS "신장").data.length < 50))) :=
  ⟨by decide,
    C9_header_shape_amended [["신장", "170"], ["x", "y"]]
      { row := 0, col := 0, text := "신장", level := 1, confidence := (mkRat 8 10) }
      (by decide)⟩

theorem foldlPreserve {σ α : Type} (inv : σ → Prop) (f : σ → α → σ)
    (hf : ∀ s a, inv s → inv (f s a)) :
    ∀ (l : List α) (s : σ), inv s → inv (l.foldl f s) := by
  intro l
  induction l with
  | nil => intro s hs; exact hs
  | cons a t ih => intro s hs; exact ih (f s a) (hf s a hs)

theorem appendAltLocation_preserve (P : RecognizedKey → Prop)
    (hP : ∀ (rk : RecognizedKey) (alts : List AltLocation), P rk →
      P { rk with alternativeLocations := alts, multipleFound := true, totalLocations := 1 + alts.length })
    (keyName : String) (alt : AltLocation) :
    ∀ st, (∀ rk ∈ st, P rk) → ∀ rk ∈ appendAltLocation keyName alt st, P rk := by
  intro st
  induction st with
  | nil => intro _ rk hrk; simp [appendAltLocation] at hrk
  | cons r rest ih =>
    intro hst rk hrk
    unfold appendAltLocation at hrk
    by_cases hk : r.key = keyName
    · rw [if_pos hk] at hrk
      rcases List.mem_cons.mp hrk with he | hm
      · subst he
        exact hP r _ (hst r (List.mem_cons_self _ _))
      · exact hst rk (List.mem_cons_of_mem _ hm)
    · rw [if_neg hk] at hrk
      rcases List.mem_cons.mp hrk with he | hm
      · subst he
        exact hst rk (List.mem_cons_self _ _)
      · exact ih (fun x hx => hst x (List.mem_cons_of_mem _ hx)) rk hm

theorem applyMatch_nextRow (db : KeyDb) (cellText : String) (r c : Nat)
    (st : List RecognizedKey) (m : MatchInfo)
    (hst : ∀ rk ∈ st, rk.valueRow = rk.anchorRow + 1 ∧ rk.valueCol = rk.anchorCol ∧
      rk.relativePosition = "next_row") :
    ∀ rk ∈ applyMatch db cellText r c st m,
      rk.valueRow = rk.anchorRow + 1 ∧ rk.valueCol = rk.anchorCol ∧
        rk.relativePosition = "next_row" := by
  intro rk hrk
  unfold applyMatch at hrk
  by_cases hex : (st.any fun rk0 => rk0.key == m.key) = true
  · rw [if_pos hex] at hrk
    exact appendAltLocation_preserve _
      (fun rk0 alts hp => ⟨hp.1, hp.2.1, hp.2.2⟩)
      m.key _ st hst rk hrk
  · rw [if_neg hex] at hrk
    rcases List.mem_append.mp hrk with hm | hm
    · exact hst rk hm
    · rcases List.mem_singleton.mp hm with he2
      subst he2
      exact ⟨rfl, rfl, rfl⟩

theorem processCell_nextRow (th : MatchThresholds) (db : KeyDb)
    (r c : Nat) (cell : String) (st : List RecognizedKey)
    (hst : ∀ rk ∈ st, rk.valueRow = rk.anchorRow + 1 ∧ rk.valueCol = rk.anchorCol ∧
      rk.relativePosition = "next_row") :
    ∀ rk ∈ processCell th db st r c cell,
      rk.valueRow = rk.anchorRow + 1 ∧ rk.valueCol = rk.anchorCol ∧
        rk.relativePosition = "next_row" := by
  intro rk hrk
  unfold processCell at hrk
  by_cases he : cell.data.isEmpty = true
  · rw [if_pos he] at hrk
    exact hst rk hrk
  · rw [if_neg he] at hrk
    dsimp only at hrk
    cases hfm : findMatchingCategory th db (pyLowerS (pyStripS (pyStripS cell))).data with
    | none =>
      rw [hfm] at hrk
      exact hst rk hrk
    | some ms =>
      rw [hfm] at hrk
      dsimp only at hrk
      exact foldlPreserve
        (fun s => ∀ rk0 ∈ s, rk0.valueRow = rk0.anchorRow + 1 ∧
          rk0.valueCol = rk0.anchorCol ∧ rk0.relativePosition = "next_row")
        (applyMatch db (pyStripS cell) r c)
        (fun s m hs => applyMatch_nextRow db (pyStripS cell) r c s m hs)
        ms st hst rk hrk

/-- C10: every recognized key the scan produces suggests the value cell
directly below its anchor — `(anchor_row + 1, anchor_col)` with relative
position `"next_row"` — for every threshold configuration, catalog and
table, independent of orientation and strategy. -/
theorem C10_value_cell_next_row (th : MatchThresholds) (db : KeyDb)
    (rows : List (List String)) (rk : RecognizedKey)
    (hmem : rk ∈ recognizeKeysScan th db rows) :
    rk.valueRow = rk.anchorRow + 1 ∧ rk.valueCol = rk.anchorCol ∧
      rk.relativePosition = "next_row" := by
  revert rk
  unfold recognizeKeysScan
  have := foldlPreserve
    (fun st => ∀ rk ∈ st, rk.valueRow = rk.anchorRow + 1 ∧
      rk.valueCol = rk.anchorCol ∧ rk.relativePosition = "next_row")
    (fun st rp => rp.2.enum.foldl
      (fun st2 cp => processCell th db st2 rp.1 cp.1 cp.2) st)
    (fun st rp hst =>
      foldlPreserve _ (fun st2 cp => processCell th db st2 rp.1 cp.1 cp.2)
        (fun s2 cp hs2 => processCell_nextRow th db rp.1 cp.1 cp.2 s2 hs2)
        rp.2.enum st hst)
    rows.enum [] (by intro rk hrk; simp at hrk)
  exact this

theorem C10_value_cell_next_row_witness :
    ({ key := "키", category := "basic", anchorText := "키", anchorRow := 0
       anchorCol := 0, valueRow := 1, valueCol := 0
       relativePosition := "next_row", confidence := (mkRat 95 100), matchType := "exact"
       multipleFound := false, alternativeLocations := [], totalLocations := 1
       selectedLocation := "primary" } : RecognizedKey) ∈
      recognizeKeysScan {} [("basic", [("키", ["키"])])] [["키"]] ∧
    ((1 : Nat) = 0 + 1 ∧ (0 : Nat) = 0 ∧ ("next_row" : String) = "next_row") := by
  have hscan : recognizeKeysScan {} [("basic", [("키", ["키"])])] [["키"]] =
      [{ key := "키", category := "basic", anchorText := "키", anchorRow := 0
         anchorCol := 0, valueRow := 1, valueCol := 0
         relativePosition := "next_row", confidence := (mkRat 95 100), matchType := "exact"
         multipleFound := false, alternativeLocations := [], totalLocations := 1
         selectedLocation := "primary" }] := by decide
  have hmem :
      ({ key := "키", category := "basic", anchorText := "키", anchorRow := 0
         anchorCol := 0, valueRow := 1, valueCol := 0
         relativePosition := "next_row", confidence := (mkRat 95 100), matchType := "exact"
         multipleFound := false, alternativeLocations := [], totalLocations := 1
         selectedLocation := "primary" } : RecognizedKey) ∈
        recognizeKeysScan {} [("basic", [("키", ["키"])])] [["키"]] := by
    rw [hscan]
    exact List.mem_singleton_self _
  exact ⟨hmem,
    C10_value_cell_next_row {} [("basic", [("키", ["키"])])] [["키"]]
      { key := "키", category := "basic", anchorText := "키", anchorRow := 0
        anchorCol := 0, valueRow := 1, valueCol := 0
        relativePosition := "next_row", confidence := (mkRat 95 100), matchType := "exact"
        multipleFound := false, alternativeLocations := [], totalLocations := 1
        selectedLocation := "primary" } hmem⟩

/-- C1 counterexample: learning from the confirmed pair `"신장"@(0,0)` →
`"170cm"@(0,1)` and re-applying to the same table recovers the value cell,
but with confidence 0.85 — the value is non-empty yet not numeric
(`float("170cm")` fails), so the claimed bound 0.9 is violated. -/
theorem C1_counterexample :
    ((applySingleRelationship
        { tableId := "t1", pageNumber := 1,
          gridData :=
            { rows := 1, cols := 2,
              cells := [{ row := 0, col := 0, content := "신장" },
                        { row := 0, col := 1, content := "170cm" }] } }
        (buildRelationship "rel_1" none
          { row := 0, col := 0, content := "신장" }
          { row := 0, col := 1, content := "170cm" }
          { tableId := "t1", pageNumber := 1,
            gridData :=
              { rows := 1, cols := 2,
                cells := [{ row := 0, col := 0, content := "신장" },
                          { row := 0, col := 1, content := "170cm" }] } })).map
      fun res => res.extractedValues.map fun ev =>
        (ev.valueRow, ev.valueCol, ev.confidence)) =
      some [(0, 1, (mkRat 17 20))] ∧
    ¬ ((mkRat 9 10 : ℚ) ≤ (mkRat 17 20)) := by
  with_unfolding_all decide

/-- C1 (amended): learning a Relationship from a confirmed
`(anchor, value)` pair of a Table (whose cell positions are unique and whose
value cell lies in bounds) and immediately applying it to the same Table
yields an extraction whose value cell is the original value cell; its
confidence is always at least 0.65, and at least 0.9 whenever the stored
value text is non-empty and numeric in the `_is_numeric_value` sense
(stripped, commas removed, accepted by `float()`). -/
theorem C1_round_trip_amended (table : TableData) (rid : String)
    (desc : Option String) (anchorCell valueCell : CellData)
    (hA : anchorCell ∈ table.gridData.cells)
    (hV : valueCell ∈ table.gridData.cells)
    (hrow : valueCell.row < table.gridData.rows)
    (hcol : valueCell.col < table.gridData.cols)
    (huniq : ∀ c1 ∈ table.gridData.cells, ∀ c2 ∈ table.gridData.cells,
      c1.row = c2.row → c1.col = c2.col → c1 = c2) :
    ∃ res, applySingleRelationship table
        (buildRelationship rid desc anchorCell valueCell table) = some res ∧
      ∃ ev ∈ res.extractedValues,
        ev.valueRow = valueCell.row ∧ ev.valueCol = valueCell.col ∧
        ev.valueContent = valueCell.content ∧
        13/20 ≤ ev.confidence ∧
        ((pyStripS valueCell.content).data.isEmpty = false →
          isNumericValue valueCell.content = true →
          9/10 ≤ ev.confidence) := by
  set rel := buildRelationship rid desc anchorCell valueCell table with hrel
  have hanchcontent : rel.anchor.content = anchorCell.content := rfl
  have hro : rel.relativePosition.rowOffset =
      (valueCell.row : Int) - (anchorCell.row : Int) := rfl
  have hco : rel.relativePosition.colOffset =
      (valueCell.col : Int) - (anchorCell.col : Int) := rfl
  -- the anchor cell matches itself in the content scan
  have hanch : anchorCell ∈ findCellsByContent table rel.anchor.content false := by
    unfold findCellsByContent
    refine List.mem_filter.mpr ⟨hA, ?_⟩
    rw [hanchcontent]
    simp [containsSubS, containsSubL_self]
  -- the positional lookup from the anchor returns exactly the value cell
  have hfindv : findValueCellByPosition table anchorCell rel.relativePosition =
      some valueCell := by
    unfold findValueCellByPosition
    rw [hro, hco]
    have htr : (anchorCell.row : Int) + ((valueCell.row : Int) - (anchorCell.row : Int)) =
        (valueCell.row : Int) := by ring
    have htc : (anchorCell.col : Int) + ((valueCell.col : Int) - (anchorCell.col : Int)) =
        (valueCell.col : Int) := by ring
    rw [htr, htc]
    rw [if_neg]
    · have hpv : (Int.ofNat valueCell.row == (valueCell.row : Int) &&
          Int.ofNat valueCell.col == (valueCell.col : Int)) = true := by
        simp [Int.ofNat_eq_coe]
      cases hfind : table.gridData.cells.find? fun cell =>
          Int.ofNat cell.row == (valueCell.row : Int) &&
          Int.ofNat cell.col == (valueCell.col : Int) with
      | none =>
        exact absurd hpv (by simpa using List.find?_eq_none.mp hfind valueCell hV)
      | some c =>
        have hcp := List.find?_some hfind
        have hcmem := List.mem_of_find?_eq_some hfind
        simp only [Bool.and_eq_true, beq_iff_eq, Int.ofNat_eq_coe] at hcp
        have hr : c.row = valueCell.row := by exact_mod_cast hcp.1
        have hc2 : c.col = valueCell.col := by exact_mod_cast hcp.2
        rw [huniq c hcmem valueCell hV hr hc2]
    · push_neg
      refine ⟨by positivity, ?_, by positivity, ?_⟩
      · exact_mod_cast hrow
      · exact_mod_cast hcol
  -- the extraction entry contributed by the anchor cell itself
  have hentry : extractionEntry rel anchorCell valueCell ∈
      (findCellsByContent table rel.anchor.content false).filterMap fun a =>
        (findValueCellByPosition table a rel.relativePosition).map fun v =>
          extractionEntry rel a v :=
    List.mem_filterMap.mpr ⟨anchorCell, hanch, by rw [hfindv]; rfl⟩
  have hc1 : ¬((findCellsByContent table rel.anchor.content false).isEmpty = true) := by
    intro hc
    rw [List.isEmpty_eq_true] at hc
    rw [hc] at hanch
    exact absurd hanch (List.not_mem_nil _)
  have hc2 : ¬((((findCellsByContent table rel.anchor.content false).filterMap fun a =>
      (findValueCellByPosition table a rel.relativePosition).map fun v =>
        extractionEntry rel a v)).isEmpty = true) := by
    intro hc
    rw [List.isEmpty_eq_true] at hc
    rw [hc] at hentry
    exact absurd hentry (List.not_mem_nil _)
  have happ : applySingleRelationship table rel = some
      { relationshipId := rel.id, description := rel.description,
        anchorContent := rel.anchor.content,
        extractedValues := (findCellsByContent table rel.anchor.content false).filterMap
          fun a => (findValueCellByPosition table a rel.relativePosition).map fun v =>
            extractionEntry rel a v,
        extractionCount := ((findCellsByContent table rel.anchor.content false).filterMap
          fun a => (findValueCellByPosition table a rel.relativePosition).map fun v =>
            extractionEntry rel a v).length } := by
    simp only [applySingleRelationship]
    rw [if_neg hc1, if_neg hc2]
  have hsim : calcTextSimilarity anchorCell.content rel.anchor.content =
      textSimilarityExact := by
    unfold calcTextSimilarity
    rw [hanchcontent]
    simp
  refine ⟨_, happ, extractionEntry rel anchorCell valueCell, hentry, rfl, rfl, rfl, ?_, ?_⟩
  · show 13/20 ≤ (extractionEntry rel anchorCell valueCell).confidence
    simp only [extractionEntry]
    unfold calcExtractionConfidence
    rw [hsim]
    unfold textSimilarityExact confidenceBase confidenceAnchorWeight
      confidenceValueWeight confidenceNumericWeight pyMin pyMax
    split_ifs <;> norm_num [Rat.mkRat_eq_div] at *
  · intro hne hnum
    show (9 : ℚ)/10 ≤ (extractionEntry rel anchorCell valueCell).confidence
    simp only [extractionEntry]
    unfold calcExtractionConfidence
    rw [hsim]
    unfold textSimilarityExact confidenceBase confidenceAnchorWeight
      confidenceValueWeight confidenceNumericWeight pyMin pyMax
    rw [hne, hnum]
    split_ifs <;> norm_num [Rat.mkRat_eq_div] at *

theorem C1_round_trip_amended_witness :
    (({ row := 0, col := 0, content := "신장" } : CellData) ∈
        [({ row := 0, col := 0, content := "신장" } : CellData),
         { row := 0, col := 1, content := "175" }]) ∧
    (({ row := 0, col := 1, content := "175" } : CellData) ∈
        [({ row := 0, col := 0, content := "신장" } : CellData),
         { row := 0, col := 1, content := "175" }]) ∧
    (0 : Nat) < 1 ∧ (1 : Nat) < 2 ∧
    (∃ res, applySingleRelationship
        { tableId := "t2", pageNumber := 1,
          gridData :=
            { rows := 1, cols := 2,
              cells := [{ row := 0, col := 0, content := "신장" },
                        { row := 0, col := 1, content := "175" }] } }
        (buildRelationship "rel_2" none
          { row := 0, col := 0, content := "신장" }
          { row := 0, col := 1, content := "175" }
          { tableId := "t2", pageNumber := 1,
            gridData :=
              { rows := 1, cols := 2,
                cells := [{ row := 0, col := 0, content := "신장" },
                          { row := 0, col := 1, content := "175" }] } }) = some res ∧
      ∃ ev ∈ res.extractedValues,
        ev.valueRow = ({ row := 0, col := 1, content := "175" } : CellData).row ∧
        ev.valueCol = ({ row := 0, col := 1, content := "175" } : CellData).col ∧
        ev.valueContent = ({ row := 0, col := 1, content := "175" } : CellData).content ∧
        13/20 ≤ ev.confidence ∧
        ((pyStripS ({ row := 0, col := 1, content := "175" } : CellData).content).data.isEmpty = false →
          isNumericValue ({ row := 0, col := 1, content := "175" } : CellData).content = true →
          9/10 ≤ ev.confidence)) :=
  ⟨by decide, by decide, by decide, by decide,
    C1_round_trip_amended
      { tableId := "t2", pageNumber := 1,
        gridData :=
          { rows := 1, cols := 2,
            cells := [{ row := 0, col := 0, content := "신장" },
                      { row := 0, col := 1, content := "175" }] } }
      "rel_2" none
      { row := 0, col := 0, content := "신장" }
      { row := 0, col := 1, content := "175" }
      (by decide) (by decide) (by decide) (by decide) (by decide)⟩

theorem pyGet_nonneg {α : Type} (l : List α) (i : Int) (h : 0 ≤ i) :
    pyGet l i = l.get? i.toNat := by
  unfold pyGet
  rw [if_pos h]

theorem existsPassingChebB_of_candidate (table : List (List String))
    (strat : ExtractionStrategy) (patterns : Option (List String))
    (anchorRow anchorCol : Int) (conf : ℚ)
    (hc : chebCandidateAt table strat patterns anchorRow anchorCol conf)
    (hthr : strat.confidenceThreshold ≤ conf) :
    existsPassingChebB table strat patterns anchorRow anchorCol = true := by
  obtain ⟨r, c, rowL, cellStr, hrow, hcell, hdr, hdc, hne, hval, hconf⟩ := hc
  obtain ⟨hrlt, -⟩ := List.get?_eq_some.mp hrow
  obtain ⟨hclt, -⟩ := List.get?_eq_some.mp hcell
  unfold existsPassingChebB
  rw [List.any_eq_true]
  refine ⟨r, List.mem_range.mpr hrlt, ?_⟩
  rw [hrow]
  rw [List.any_eq_true]
  refine ⟨c, List.mem_range.mpr hclt, ?_⟩
  simp only [Bool.and_eq_true, decide_eq_true_eq]
  refine ⟨⟨hdr, hdc⟩, ?_⟩
  unfold cellPassesB
  simp only [hrow, hcell]
  simp only [Bool.and_eq_true, decide_eq_true_eq]
  refine ⟨⟨?_, hval⟩, ?_⟩
  · simp [hne]
  · rw [hconf]
    exact hthr

theorem mem_range'_one (n d : Nat) (hd : d ∈ List.range' 1 n) : 1 ≤ d ∧ d ≤ n := by
  rw [List.mem_range'_1] at hd
  omega

theorem verticalScanAux_found (table : List (List String)) (anchorRow anchorCol : Int)
    (strat : ExtractionStrategy) (patterns : Option (List String))
    (har : 0 ≤ anchorRow) (hac : 0 ≤ anchorCol) :
    ∀ (ds : List Nat) (path : List (Int × Int)) (res : SearchResult),
      (∀ d ∈ ds, 1 ≤ d ∧ d ≤ strat.maxSearchDistance) →
      verticalScanAux table anchorRow anchorCol strat patterns ds path = .ok res →
      res.found = true →
      existsPassingChebB table strat patterns anchorRow anchorCol = true := by
  intro ds
  induction ds with
  | nil =>
    intro path res _ hok hfound
    unfold verticalScanAux at hok
    cases hok
    simp [notFoundResult] at hfound
  | cons d ds ih =>
    intro path res hds hok hfound
    unfold verticalScanAux at hok
    by_cases hbreak : ((table.length : Int) ≤ anchorRow + (d : Int))
    · rw [if_pos hbreak] at hok
      cases hok
      simp [notFoundResult] at hfound
    · rw [if_neg hbreak] at hok
      dsimp only at hok
      have hge : (0 : Int) ≤ anchorRow + (d : Int) := by omega
      rw [pyGet_nonneg _ _ hge] at hok
      cases hrow : table.get? (anchorRow + (d : Int)).toNat with
      | none =>
        rw [hrow] at hok
        exact absurd hok (by simp)
      | some rowL =>
        rw [hrow] at hok
        dsimp only at hok
        by_cases hcl : anchorCol < (rowL.length : Int)
        · rw [if_pos hcl] at hok
          rw [pyGet_nonneg _ _ hac] at hok
          cases hcell : rowL.get? anchorCol.toNat with
          | none =>
            rw [hcell] at hok
            exact absurd hok (by simp)
          | some cellStr =>
            rw [hcell] at hok
            dsimp only at hok
            by_cases hval : (!(pyStripS cellStr).data.isEmpty &&
                isValueCell (pyStripS cellStr) patterns) = true
            · rw [if_pos hval] at hok
              by_cases hthr : strat.confidenceThreshold ≤
                  calcConfidence (pyStripS cellStr) d strat
              · rw [if_pos hthr] at hok
                refine existsPassingChebB_of_candidate table strat patterns
                  anchorRow anchorCol (calcConfidence (pyStripS cellStr) d strat)
                  ?_ hthr
                have hcast : (((anchorRow + (d : Int)).toNat : Int)) =
                    anchorRow + (d : Int) := Int.toNat_of_nonneg hge
                have hccast : ((anchorCol.toNat : Int)) = anchorCol :=
                  Int.toNat_of_nonneg hac
                have habsr : (((anchorRow + (d : Int)).toNat : Int) - anchorRow).natAbs = d := by
                  rw [hcast]
                  simp
                have habsc : ((anchorCol.toNat : Int) - anchorCol).natAbs = 0 := by
                  rw [hccast]
                  simp
                refine ⟨(anchorRow + (d : Int)).toNat, anchorCol.toNat, rowL, cellStr,
                  hrow, hcell, ?_, ?_, ?_, ?_, ?_⟩
                · rw [habsr]
                  exact (hds d (List.mem_cons_self _ _)).2
                · rw [habsc]
                  exact Nat.zero_le _
                · simpa using (Bool.and_eq_true _ _ |>.mp hval).1
                · exact (Bool.and_eq_true _ _ |>.mp hval).2
                · rw [habsr, habsc, Nat.add_zero]
              · rw [if_neg hthr] at hok
                exact ih _ res (fun x hx => hds x (List.mem_cons_of_mem _ hx)) hok hfound
            · rw [if_neg hval] at hok
              exact ih _ res (fun x hx => hds x (List.mem_cons_of_mem _ hx)) hok hfound
        · rw [if_neg hcl] at hok
          exact ih _ res (fun x hx => hds x (List.mem_cons_of_mem _ hx)) hok hfound

theorem horizontalScanAux_found (table : List (List String)) (anchorRow anchorCol : Int)
    (strat : ExtractionStrategy) (patterns : Option (List String))
    (har : 0 ≤ anchorRow) (hac : 0 ≤ anchorCol) :
    ∀ (ds : List Nat) (path : List (Int × Int)) (res : SearchResult),
      (∀ d ∈ ds, 1 ≤ d ∧ d ≤ strat.maxSearchDistance) →
      horizontalScanAux table anchorRow anchorCol strat patterns ds path = .ok res →
      res.found = true →
      existsPassingChebB table strat patterns anchorRow anchorCol = true := by
  intro ds
  induction ds with
  | nil =>
    intro path res _ hok hfound
    unfold horizontalScanAux at hok
    cases hok
    simp [notFoundResult] at hfound
  | cons d ds ih =>
    intro path res hds hok hfound
    unfold horizontalScanAux at hok
    rw [pyGet_nonneg _ _ har] at hok
    cases hrowA : table.get? anchorRow.toNat with
    | none =>
      rw [hrowA] at hok
      exact absurd hok (by simp)
    | some rowA =>
      rw [hrowA] at hok
      try dsimp only at hok
      by_cases hbreak : ((rowA.length : Int) ≤ anchorCol + (d : Int))
      · rw [if_pos hbreak] at hok
        cases hok
        simp [notFoundResult] at hfound
      · rw [if_neg hbreak] at hok
        try dsimp only at hok
        have hge : (0 : Int) ≤ anchorCol + (d : Int) := by omega
        rw [pyGet_nonneg _ _ hge] at hok
        cases hcell : rowA.get? (anchorCol + (d : Int)).toNat with
        | none =>
          rw [hcell] at hok
          exact absurd hok (by simp)
        | some cellStr =>
          rw [hcell] at hok
          dsimp only at hok
          by_cases hval : (!(pyStripS cellStr).data.isEmpty &&
              isValueCell (pyStripS cellStr) patterns) = true
          · rw [if_pos hval] at hok
            by_cases hthr : strat.confidenceThreshold ≤
                calcConfidence (pyStripS cellStr) d strat
            · rw [if_pos hthr] at hok
              refine existsPassingChebB_of_candidate table strat patterns
                anchorRow anchorCol (calcConfidence (pyStripS cellStr) d strat)
                ?_ hthr
              have hcast : ((anchorRow.toNat : Int)) = anchorRow :=
                Int.toNat_of_nonneg har
              have hccast : (((anchorCol + (d : Int)).toNat : Int)) = anchorCol + d :=
                Int.toNat_of_nonneg hge
              have habsr : ((anchorRow.toNat : Int) - anchorRow).natAbs = 0 := by
                rw [hcast]
                simp
              have habsc : (((anchorCol + (d : Int)).toNat : Int) - anchorCol).natAbs = d := by
                rw [hccast]
                simp
              refine ⟨anchorRow.toNat, (anchorCol + (d : Int)).toNat, rowA, cellStr,
                hrowA, hcell, ?_, ?_, ?_, ?_, ?_⟩
              · rw [habsr]
                exact Nat.zero_le _
              · rw [habsc]
                exact (hds d (List.mem_cons_self _ _)).2
              · simpa using (Bool.and_eq_true _ _ |>.mp hval).1
              · exact (Bool.and_eq_true _ _ |>.mp hval).2
              · rw [habsr, habsc, Nat.zero_add]
            · rw [if_neg hthr] at hok
              exact ih _ res (fun x hx => hds x (List.mem_cons_of_mem _ hx)) hok hfound
          · rw [if_neg hval] at hok
            exact ih _ res (fun x hx => hds x (List.mem_cons_of_mem _ hx)) hok hfound

theorem horizontalScan_found (table : List (List String)) (anchorRow anchorCol : Int)
    (strat : ExtractionStrategy) (patterns : Option (List String))
    (har : 0 ≤ anchorRow) (hac : 0 ≤ anchorCol) (res : SearchResult)
    (hok : horizontalScan table anchorRow anchorCol strat patterns = .ok res)
    (hfound : res.found = true) :
    existsPassingChebB table strat patterns anchorRow anchorCol = true := by
  unfold horizontalScan at hok
  by_cases hg : ((table.length : Int) ≤ anchorRow)
  · rw [if_pos hg] at hok
    cases hok
    simp [notFoundResult] at hfound
  · rw [if_neg hg] at hok
    exact horizontalScanAux_found table anchorRow anchorCol strat patterns har hac
      _ [] res (fun x hx => mem_range'_one _ x hx) hok hfound

theorem crossDirAux_cand (table : List (List String)) (anchorRow anchorCol : Int)
    (strat : ExtractionStrategy) (patterns : Option (List String))
    (dr dc : Int) (hdir : dr.natAbs + dc.natAbs = 1) :
    ∀ (ds : List Nat) (acc : List (Int × Int) × ℚ × Option SearchResult),
      (∀ d ∈ ds, 1 ≤ d ∧ d ≤ strat.maxSearchDistance) →
      (∀ r, acc.2.2 = some r →
        chebCandidateAt table strat patterns anchorRow anchorCol acc.2.1) →
      (∀ r, (crossDirAux table anchorRow anchorCol strat patterns dr dc ds acc).2.2 = some r →
        chebCandidateAt table strat patterns anchorRow anchorCol
          (crossDirAux table anchorRow anchorCol strat patterns dr dc ds acc).2.1) := by
  intro ds
  induction ds with
  | nil =>
    intro acc _ hacc r h
    obtain ⟨p, bc, bo⟩ := acc
    simp only [crossDirAux] at h ⊢
    exact hacc r h
  | cons d ds ih =>
    intro acc hds hacc
    obtain ⟨p, bc, bo⟩ := acc
    unfold crossDirAux
    by_cases hb1 : ((decide (anchorRow + dr * (d : Int) < 0) ||
        decide ((table.length : Int) ≤ anchorRow + dr * (d : Int))) = true)
    · rw [if_pos hb1]
      exact hacc
    · rw [if_neg hb1]
      simp only [Bool.or_eq_true, decide_eq_true_eq, not_or] at hb1
      have hge : (0 : Int) ≤ anchorRow + dr * (d : Int) := by omega
      cases hrow : table.get? (anchorRow + dr * (d : Int)).toNat with
      | none =>
        try dsimp only
        exact hacc
      | some rowL =>
        try dsimp only
        by_cases hb2 : ((decide (anchorCol + dc * (d : Int) < 0) ||
            decide ((rowL.length : Int) ≤ anchorCol + dc * (d : Int))) = true)
        · rw [if_pos hb2]
          exact hacc
        · rw [if_neg hb2]
          simp only [Bool.or_eq_true, decide_eq_true_eq, not_or] at hb2
          have hge2 : (0 : Int) ≤ anchorCol + dc * (d : Int) := by omega
          cases hcell : rowL.get? (anchorCol + dc * (d : Int)).toNat with
          | none =>
            try dsimp only
            exact hacc
          | some cellStr =>
            try dsimp only
            by_cases hval : (!(pyStripS cellStr).data.isEmpty &&
                isValueCell (pyStripS cellStr) patterns) = true
            · rw [if_pos hval]
              by_cases hbc : bc < calcConfidence (pyStripS cellStr) d strat
              · rw [if_pos hbc]
                refine ih _ (fun x hx => hds x (List.mem_cons_of_mem _ hx)) ?_
                intro r hr
                have hcast : (((anchorRow + dr * (d : Int)).toNat : Int)) =
                    anchorRow + dr * (d : Int) := Int.toNat_of_nonneg hge
                have hcast2 : (((anchorCol + dc * (d : Int)).toNat : Int)) =
                    anchorCol + dc * (d : Int) := Int.toNat_of_nonneg hge2
                have habsr : ((((anchorRow + dr * (d : Int)).toNat : Int)) - anchorRow).natAbs =
                    dr.natAbs * d := by
                  rw [hcast]
                  have : anchorRow + dr * (d : Int) - anchorRow = dr * (d : Int) := by ring
                  rw [this, Int.natAbs_mul]
                  simp
                have habsc : ((((anchorCol + dc * (d : Int)).toNat : Int)) - anchorCol).natAbs =
                    dc.natAbs * d := by
                  rw [hcast2]
                  have : anchorCol + dc * (d : Int) - anchorCol = dc * (d : Int) := by ring
                  rw [this, Int.natAbs_mul]
                  simp
                have hd1 : 1 ≤ d := (hds d (List.mem_cons_self _ _)).1
                have hd2 : d ≤ strat.maxSearchDistance := (hds d (List.mem_cons_self _ _)).2
                have hsum : dr.natAbs * d + dc.natAbs * d = d := by
                  have : (dr.natAbs + dc.natAbs) * d = 1 * d := by rw [hdir]
                  rw [Nat.add_mul] at this
                  omega
                refine ⟨(anchorRow + dr * (d : Int)).toNat,
                  (anchorCol + dc * (d : Int)).toNat, rowL, cellStr, hrow, hcell,
                  ?_, ?_, ?_, ?_, ?_⟩
                · rw [habsr]
                  have hle : dr.natAbs ≤ 1 := by omega
                  calc dr.natAbs * d ≤ 1 * d := Nat.mul_le_mul_right d hle
                    _ = d := Nat.one_mul d
                    _ ≤ strat.maxSearchDistance := hd2
                · rw [habsc]
                  have hle : dc.natAbs ≤ 1 := by omega
                  calc dc.natAbs * d ≤ 1 * d := Nat.mul_le_mul_right d hle
                    _ = d := Nat.one_mul d
                    _ ≤ strat.maxSearchDistance := hd2
                · simpa using (Bool.and_eq_true _ _ |>.mp hval).1
                · exact (Bool.and_eq_true _ _ |>.mp hval).2
                · rw [habsr, habsc, hsum]
              · rw [if_neg hbc]
                exact ih _ (fun x hx => hds x (List.mem_cons_of_mem _ hx)) hacc
            · rw [if_neg hval]
              exact ih _ (fun x hx => hds x (List.mem_cons_of_mem _ hx)) hacc

theorem crossFold_cand (table : List (List String)) (anchorRow anchorCol : Int)
    (strat : ExtractionStrategy) (patterns : Option (List String)) :
    ∀ (dirs : List (Int × Int)), (∀ p ∈ dirs, p.1.natAbs + p.2.natAbs = 1) →
    ∀ (acc : List (Int × Int) × ℚ × Option SearchResult),
      (∀ r, acc.2.2 = some r →
        chebCandidateAt table strat patterns anchorRow anchorCol acc.2.1) →
      ∀ r, (dirs.foldl (fun acc dir =>
          crossDirAux table anchorRow anchorCol strat patterns dir.1 dir.2
            (List.range' 1 strat.maxSearchDistance) acc) acc).2.2 = some r →
        chebCandidateAt table strat patterns anchorRow anchorCol
          (dirs.foldl (fun acc dir =>
            crossDirAux table anchorRow anchorCol strat patterns dir.1 dir.2
              (List.range' 1 strat.maxSearchDistance) acc) acc).2.1 := by
  intro dirs
  induction dirs with
  | nil =>
    intro _ acc hacc r h
    exact hacc r h
  | cons dir rest ih =>
    intro hdirs acc hacc
    simp only [List.foldl_cons]
    exact ih (fun p hp => hdirs p (List.mem_cons_of_mem _ hp)) _
      (crossDirAux_cand table anchorRow anchorCol strat patterns dir.1 dir.2
        (hdirs dir (List.mem_cons_self _ _)) _ acc
        (fun x hx => mem_range'_one _ x hx) hacc)

theorem crossPatternSearch_found (table : List (List String)) (anchorRow anchorCol : Int)
    (strat : ExtractionStrategy) (patterns : Option (List String))
    (hfound : (crossPatternSearch table anchorRow anchorCol strat patterns).found = true) :
    existsPassingChebB table strat patterns anchorRow anchorCol = true := by
  unfold crossPatternSearch at hfound
  try dsimp only at hfound
  have hinv := crossFold_cand table anchorRow anchorCol strat patterns
    [(0, 1), (1, 0), (0, -1), (-1, 0)] (by decide) ([], 0, none)
    (by intro r h; exact absurd h (by simp))
  cases hbest : ([((0 : Int), (1 : Int)), (1, 0), (0, -1), (-1, 0)].foldl
      (fun acc dir => crossDirAux table anchorRow anchorCol strat patterns dir.1 dir.2
        (List.range' 1 strat.maxSearchDistance) acc) ([], 0, none)).2.2 with
  | none =>
    rw [hbest] at hfound
    simp [notFoundResult] at hfound
  | some r =>
    rw [hbest] at hfound
    try dsimp only at hfound
    by_cases hthr : strat.confidenceThreshold ≤
        ([((0 : Int), (1 : Int)), (1, 0), (0, -1), (-1, 0)].foldl
          (fun acc dir => crossDirAux table anchorRow anchorCol strat patterns dir.1 dir.2
            (List.range' 1 strat.maxSearchDistance) acc) ([], 0, none)).2.1
    · exact existsPassingChebB_of_candidate table strat patterns anchorRow anchorCol _
        (hinv r hbest) hthr
    · rw [if_neg hthr] at hfound
      simp [notFoundResult] at hfound

theorem foldlMax_mem {α : Type} (key : α → ℚ) :
    ∀ (as : List α) (b : α),
      as.foldl (fun b a => if key b < key a then a else b) b = b ∨
      as.foldl (fun b a => if key b < key a then a else b) b ∈ as := by
  intro as
  induction as with
  | nil =>
    intro b
    left
    rfl
  | cons a as ih =>
    intro b
    simp only [List.foldl_cons]
    rcases ih (if key b < key a then a else b) with h | h
    · rw [h]
      by_cases hk : key b < key a
      · right
        rw [if_pos hk]
        exact List.mem_cons_self _ _
      · left
        rw [if_neg hk]
    · right
      exact List.mem_cons_of_mem _ h

theorem pyMaxBy_mem {α : Type} (key : α → ℚ) (l : List α) (x : α)
    (h : pyMaxBy key l = some x) : x ∈ l := by
  cases l with
  | nil => exact absurd h (by simp [pyMaxBy])
  | cons a as =>
    simp only [pyMaxBy, Option.some.injEq] at h
    subst h
    rcases foldlMax_mem key as a with h | h
    · rw [h]
      exact List.mem_cons_self _ _
    · exact List.mem_cons_of_mem _ h

theorem proximityVisited_spec (table : List (List String)) (anchorRow anchorCol : Int)
    (m : Nat) (t : Int × Int × String)
    (hmem : t ∈ proximityVisited table anchorRow anchorCol m) :
    0 ≤ t.1 ∧ 0 ≤ t.2.1 ∧ (t.1 - anchorRow).natAbs ≤ m ∧ (t.2.1 - anchorCol).natAbs ≤ m ∧
      ∃ rowL, table.get? t.1.toNat = some rowL ∧ rowL.get? t.2.1.toNat = some t.2.2 := by
  unfold proximityVisited at hmem
  dsimp only at hmem
  rw [List.mem_filterMap] at hmem
  obtain ⟨p, hp, hf⟩ := hmem
  rw [List.mem_flatMap] at hp
  obtain ⟨dr, hdr, hp2⟩ := hp
  rw [List.mem_map] at hp2
  obtain ⟨dc, hdc, hpe⟩ := hp2
  simp only [List.mem_map, List.mem_range] at hdr hdc
  obtain ⟨i, hi, hieq⟩ := hdr
  obtain ⟨j, hj, hjeq⟩ := hdc
  have hdrb : dr.natAbs ≤ m := by omega
  have hdcb : dc.natAbs ≤ m := by omega
  subst hpe
  dsimp only at hf
  by_cases h0 : dr = 0 ∧ dc = 0
  · rw [if_pos h0] at hf
    exact absurd hf (by simp)
  · rw [if_neg h0] at hf
    by_cases hb1 : ((decide (anchorRow + dr < 0) ||
        decide ((table.length : Int) ≤ anchorRow + dr)) = true)
    · rw [if_pos hb1] at hf
      exact absurd hf (by simp)
    · rw [if_neg hb1] at hf
      simp only [Bool.or_eq_true, decide_eq_true_eq, not_or] at hb1
      cases hrow : table.get? (anchorRow + dr).toNat with
      | none =>
        rw [hrow] at hf
        exact absurd hf (by simp)
      | some rowL =>
        rw [hrow] at hf
        try dsimp only at hf
        by_cases hb2 : ((decide (anchorCol + dc < 0) ||
            decide ((rowL.length : Int) ≤ anchorCol + dc)) = true)
        · rw [if_pos hb2] at hf
          exact absurd hf (by simp)
        · rw [if_neg hb2] at hf
          simp only [Bool.or_eq_true, decide_eq_true_eq, not_or] at hb2
          cases hcell : rowL.get? (anchorCol + dc).toNat with
          | none =>
            rw [hcell] at hf
            exact absurd hf (by simp)
          | some cs =>
            rw [hcell] at hf
            try dsimp only at hf
            rw [Option.some.injEq] at hf
            subst hf
            dsimp only
            refine ⟨by omega, by omega, by omega, by omega, rowL, hrow, hcell⟩

theorem proximityCandidates_cand (table : List (List String)) (anchorRow anchorCol : Int)
    (strat : ExtractionStrategy) (patterns : Option (List String)) (c : ProximityCandidate)
    (hmem : c ∈ proximityCandidates table anchorRow anchorCol strat patterns) :
    chebCandidateAt table strat patterns anchorRow anchorCol c.confidence := by
  unfold proximityCandidates at hmem
  rw [List.mem_filterMap] at hmem
  obtain ⟨t, ht, hf⟩ := hmem
  obtain ⟨h1, h2, h3, h4, rowL, hrow, hcell⟩ :=
    proximityVisited_spec table anchorRow anchorCol strat.maxSearchDistance t ht
  dsimp only at hf
  by_cases hval : (!(pyStripS t.2.2).data.isEmpty &&
      isValueCell (pyStripS t.2.2) patterns) = true
  · rw [if_pos hval] at hf
    rw [Option.some.injEq] at hf
    subst hf
    refine ⟨t.1.toNat, t.2.1.toNat, rowL, t.2.2, hrow, hcell, ?_, ?_, ?_, ?_, ?_⟩
    · rw [Int.toNat_of_nonneg h1]
      exact h3
    · rw [Int.toNat_of_nonneg h2]
      exact h4
    · simpa using (Bool.and_eq_true _ _ |>.mp hval).1
    · exact (Bool.and_eq_true _ _ |>.mp hval).2
    · rw [Int.toNat_of_nonneg h1, Int.toNat_of_nonneg h2]
  · rw [if_neg hval] at hf
    exact absurd hf (by simp)

theorem proximitySearch_found (table : List (List String)) (anchorRow anchorCol : Int)
    (strat : ExtractionStrategy) (patterns : Option (List String))
    (hfound : (proximitySearch table anchorRow anchorCol strat patterns).found = true) :
    existsPassingChebB table strat patterns anchorRow anchorCol = true := by
  unfold proximitySearch at hfound
  try dsimp only at hfound
  cases hmax : pyMaxBy (fun c => c.confidence)
      (proximityCandidates table anchorRow anchorCol strat patterns) with
  | none =>
    rw [hmax] at hfound
    simp [notFoundResult] at hfound
  | some best =>
    rw [hmax] at hfound
    try dsimp only at hfound
    by_cases hthr : strat.confidenceThreshold ≤ best.confidence
    · exact existsPassingChebB_of_candidate table strat patterns anchorRow anchorCol
        best.confidence
        (proximityCandidates_cand table anchorRow anchorCol strat patterns best
          (pyMaxBy_mem _ _ _ hmax)) hthr
    · rw [if_neg hthr] at hfound
      simp [notFoundResult] at hfound

/-- C4 counterexample: from the out-of-grid anchor `(-3, 0)` on the 2×1 grid
`[["a"], ["5"]]`, no in-bounds cell within Manhattan distance
`max_search_distance` passes the value predicate at or above the threshold
(the only numeric cell sits at distance 4, confidence 0.7 < 0.8), yet
`find_value_cell` returns `found = true`: the vertical scan's Python-style
negative index `-1` wraps around to the last row and matches `"5"` at wrapped
distance 2. -/
theorem C4_counterexample :
    existsPassingManB [["a"], ["5"]] initStrategies.horizontalHeader none (-3) 0 = false ∧
    (findValueCell [["a"], ["5"]] (-3) 0 initStrategies.horizontalHeader none).found = true :=
  ⟨by with_unfolding_all decide, by with_unfolding_all decide⟩

/-- C4 (amended): for an anchor with non-negative coordinates, whenever no
in-bounds cell within Chebyshev distance `max_search_distance` of the anchor
passes the value predicate with confidence at or above the strategy
threshold, `find_value_cell` (a total function, returning a `SearchResult`
for every input, with the catch-all `except IndexError` modelled by the
`Except.error` branch) returns `found = false`. -/
theorem C4_no_candidate_amended (table : List (List String)) (anchorRow anchorCol : Int)
    (strat : ExtractionStrategy) (patterns : Option (List String))
    (har : 0 ≤ anchorRow) (hac : 0 ≤ anchorCol)
    (hno : existsPassingChebB table strat patterns anchorRow anchorCol = false) :
    (findValueCell table anchorRow anchorCol strat patterns).found = false := by
  by_contra hfound
  rw [Bool.not_eq_false] at hfound
  have hcheb : existsPassingChebB table strat patterns anchorRow anchorCol = true := by
    unfold findValueCell at hfound
    try dsimp only at hfound
    cases hs : strat.cellSearchStrategy
    case verticalScan =>
      rw [hs] at hfound
      cases hres : verticalScanAux table anchorRow anchorCol strat patterns
          (List.range' 1 strat.maxSearchDistance) [] with
      | ok r =>
        rw [hres] at hfound
        exact verticalScanAux_found table anchorRow anchorCol strat patterns har hac
          _ [] r (fun d hd => mem_range'_one _ d hd) hres hfound
      | error e =>
        rw [hres] at hfound
        simp [notFoundResult] at hfound
    case horizontalScan =>
      rw [hs] at hfound
      cases hres : horizontalScan table anchorRow anchorCol strat patterns with
      | ok r =>
        rw [hres] at hfound
        exact horizontalScan_found table anchorRow anchorCol strat patterns har hac
          r hres hfound
      | error e =>
        rw [hres] at hfound
        simp [notFoundResult] at hfound
    case crossPattern =>
      rw [hs] at hfound
      exact crossPatternSearch_found table anchorRow anchorCol strat patterns hfound
    case proximityBased =>
      rw [hs] at hfound
      exact proximitySearch_found table anchorRow anchorCol strat patterns hfound
    case headerGuided =>
      rw [hs] at hfound
      exact proximitySearch_found table anchorRow anchorCol strat patterns hfound
  rw [hno] at hcheb
  exact Bool.false_ne_true hcheb

theorem C4_no_candidate_amended_witness :
    (0 : Int) ≤ 0 ∧
    existsPassingChebB [] initStrategies.horizontalHeader none 0 0 = false ∧
    (findValueCell [] 0 0 initStrategies.horizontalHeader none).found = false :=
  ⟨by decide, by decide,
    C4_no_candidate_amended [] 0 0 initStrategies.horizontalHeader none
      (by decide) (by decide) (by decide)⟩

end DocAI
